import Mathlib

/-!
Verification of the ShiftPilot scheduling core
(`backend/app/services/scheduling/`): a shallow embedding of the domain
types (`types.py`), the availability predicate (`availability.py`), the
constraint validator (`constraints.py`), the greedy solver (`solver.py`),
the CP-SAT model construction and result extraction (`or_solver.py`), and
the orchestrator (`generator.py`, `data_loader.py`), together with
theorems settling the specification's claims about them.

Conventions of the embedding (mirroring the Python source):
* A wall-clock `time` is an `Int`, minutes after midnight (0 .. 1439).
* A `date` is an `Int`, days since an epoch Monday, so that Python's
  `date.weekday()` (Monday = 0) becomes `d % 7` (`Int.emod`, which is
  non-negative for positive modulus, exactly like Python's `%`).
* A `datetime` is an `Int`, minutes since midnight of the epoch Monday;
  `datetime.combine(d, t) = d * 1440 + t`, `.date() = Int.fdiv · 1440`
  (Python's floor division `//`), `.time() = · % 1440`,
  `.weekday() = (Int.fdiv · 1440) % 7`.
* Python `float` quantities (hours, scores) are embedded as `ℚ`; all
  durations arising in the source are multiples of half an hour, which
  `ℚ` represents exactly.
* Python truthiness of optional values matters in several places; it is
  embedded explicitly by `truthyTime` / `truthyId`.  For integers, `0`
  and `None` are falsy.  For `datetime.time` values only `None` is
  falsy: `time` objects are always truthy on Python ≥ 3.5, and this
  codebase requires ≥ 3.9 (PEP 585 annotations such as
  `list[AvailabilityRule]` without a `__future__` import), so
  `rule.start_time and rule.end_time` is a both-non-`None` test.
-/

/-- Python `range(a, b)` over integers. -/
def intRange (a b : Int) : List Int :=
  (List.range (b - a).toNat).map (fun k : Nat => a + (k : Int))

/-- Python `max(l, default=d)`: `d` is used only when the list is empty. -/
def listMaxD (l : List Int) (d : Int) : Int :=
  match l with
  | [] => d
  | x :: xs => xs.foldl max x

/-- Insert `x` into `acc` behind every element `y` with `le y x`
(stable insertion). -/
def insertLe {α : Type} (le : α → α → Bool) (x : α) : List α → List α
  | [] => [x]
  | y :: ys => if le y x then y :: insertLe le x ys else x :: y :: ys

/-- Stable sort (the result Python's stable `sorted` / `list.sort`
produces for the total preorder `le`). -/
def stableSort {α : Type} (le : α → α → Bool) (l : List α) : List α :=
  l.foldl (fun acc x => insertLe le x acc) []

/-- Python truthiness of an optional wall-clock time: only `None` is
falsy — `datetime.time` objects (including `time(0, 0)`) are always
truthy on the Python versions this codebase runs on (≥ 3.9). -/
def truthyTime : Option Int → Bool
  | none => false
  | some _ => true

/-- Python truthiness of an optional integer id: `None` and `0` are falsy. -/
def truthyId : Option Int → Bool
  | none => false
  | some i => i != 0

/-! ## Domain types (`types.py`) -/

inductive AvailabilityType where
  | AVAILABLE
  | UNAVAILABLE
  | PREFERRED
deriving DecidableEq, Repr

structure Employee where
  id : Int
  store_id : Int
  is_keyholder : Bool
  is_manager : Bool
  contracted_weekly_hours : Int
  department_ids : List Int
  primary_department_id : Option Int
deriving DecidableEq, Repr

structure AvailabilityRule where
  employee_id : Int
  day_of_week : Int
  rule_type : AvailabilityType
  start_time : Option Int
  end_time : Option Int
deriving DecidableEq, Repr

structure TimeOffRequest where
  employee_id : Int
  start_datetime : Int
  end_datetime : Int
deriving DecidableEq, Repr

structure CoverageRequirement where
  id : Int
  store_id : Int
  department_id : Int
  day_of_week : Int
  start_time : Int
  end_time : Int
  min_staff : Int
  max_staff : Option Int
deriving DecidableEq, Repr

structure RoleRequirement where
  id : Int
  store_id : Int
  department_id : Option Int
  day_of_week : Option Int
  start_time : Int
  end_time : Int
  requires_keyholder : Bool
  requires_manager : Bool
  min_manager_count : Int
deriving DecidableEq, Repr

structure Shift where
  employee_id : Int
  store_id : Int
  department_id : Int
  start_datetime : Int
  end_datetime : Int
deriving DecidableEq, Repr

/-- `Shift.duration_hours` (`types.py`): elapsed time in hours. -/
def Shift.duration_hours (s : Shift) : ℚ :=
  ((s.end_datetime - s.start_datetime : Int) : ℚ) / 60

/-- `Shift.day_of_week` (`types.py`): weekday of the start datetime. -/
def Shift.dayOfWeek (s : Shift) : Int :=
  (Int.fdiv s.start_datetime 1440) % 7

structure ScheduleContext where
  store_id : Int
  week_start : Int
  employees : List Employee
  availability_rules : List AvailabilityRule
  time_off_requests : List TimeOffRequest
  coverage_requirements : List CoverageRequirement
  role_requirements : List RoleRequirement
  existing_shifts : List Shift
deriving DecidableEq, Repr

structure ScheduleResult where
  success : Bool
  shifts : List Shift
  unmet_coverage : List CoverageRequirement
  unmet_role_requirements : List RoleRequirement
  unmet_contracted_hours : List (Int × ℚ)
  warnings : List String
deriving DecidableEq, Repr

/-! ## Availability predicate (`availability.py`) -/

/-- `times_overlap`: half-open overlap of two same-day time ranges. -/
def times_overlap (start1 end1 start2 end2 : Int) : Bool :=
  start1 < end2 && start2 < end1

/-- `datetime_ranges_overlap`: half-open overlap of two datetime ranges. -/
def datetime_ranges_overlap (start1 end1 start2 end2 : Int) : Bool :=
  start1 < end2 && start2 < end1

/-- `is_employee_on_time_off`. -/
def is_employee_on_time_off (employee_id shift_start shift_end : Int)
    (time_off_requests : List TimeOffRequest) : Bool :=
  time_off_requests.any (fun req =>
    req.employee_id == employee_id &&
    datetime_ranges_overlap shift_start shift_end req.start_datetime req.end_datetime)

/-- An all-day rule: `start_time is None and end_time is None`. -/
def AvailabilityRule.allDay (r : AvailabilityRule) : Bool :=
  r.start_time.isNone && r.end_time.isNone

/-- A timed rule: `rule.start_time and rule.end_time`, i.e. both times
set (non-`None`), since `time` objects are always truthy. -/
def AvailabilityRule.timed (r : AvailabilityRule) : Bool :=
  truthyTime r.start_time && truthyTime r.end_time

/-- Whether a rule window overlaps the candidate slot, used by the
`UNAVAILABLE` and `PREFERRED` scans of `get_availability_for_slot`. -/
def ruleOverlapsSlot (slot_start slot_end : Int) (r : AvailabilityRule) : Bool :=
  r.allDay ||
    (r.timed && times_overlap slot_start slot_end (r.start_time.getD 0) (r.end_time.getD 0))

/-- Whether an `AVAILABLE` rule covers the slot: all-day, or the slot is
fully inside the rule window. -/
def ruleCoversSlot (slot_start slot_end : Int) (r : AvailabilityRule) : Bool :=
  r.allDay ||
    (r.timed && slot_start ≥ r.start_time.getD 0 && slot_end ≤ r.end_time.getD 0)

/-- The `PREFERRED` upgrade test inside the `AVAILABLE` branch: only rules
with both times set (non-`None`) are considered. -/
def prefTimedOverlaps (slot_start slot_end : Int) (r : AvailabilityRule) : Bool :=
  r.rule_type == AvailabilityType.PREFERRED && r.timed &&
    times_overlap slot_start slot_end (r.start_time.getD 0) (r.end_time.getD 0)

/-- The rules of one employee for one day (`employee_rules` in
`get_availability_for_slot`). -/
def employeeRulesFor (rules : List AvailabilityRule)
    (employee_id day_of_week : Int) : List AvailabilityRule :=
  rules.filter (fun r =>
    r.employee_id == employee_id && r.day_of_week == day_of_week)

/-- `get_availability_for_slot`: effective availability of an employee for
a day/time slot, `none` meaning "no rule applies". -/
def get_availability_for_slot (employee_id day_of_week slot_start slot_end : Int)
    (rules : List AvailabilityRule) : Option AvailabilityType :=
  let employee_rules := employeeRulesFor rules employee_id day_of_week
  if employee_rules.isEmpty then none
  else if employee_rules.any (fun r =>
      r.rule_type == AvailabilityType.UNAVAILABLE && ruleOverlapsSlot slot_start slot_end r) then
    some AvailabilityType.UNAVAILABLE
  else if employee_rules.any (fun r =>
      r.rule_type == AvailabilityType.AVAILABLE && ruleCoversSlot slot_start slot_end r) then
    (if employee_rules.any (prefTimedOverlaps slot_start slot_end) then
      some AvailabilityType.PREFERRED
    else some AvailabilityType.AVAILABLE)
  else if employee_rules.any (fun r =>
      r.rule_type == AvailabilityType.PREFERRED && ruleOverlapsSlot slot_start slot_end r) then
    some AvailabilityType.PREFERRED
  else if employee_rules.any (fun r => r.rule_type == AvailabilityType.AVAILABLE) then
    some AvailabilityType.UNAVAILABLE
  else none

/-- `can_employee_work_shift`: feasibility of a candidate shift window for
an employee, with the first failing reason. -/
def can_employee_work_shift (employee : Employee) (shift_start shift_end department_id : Int)
    (availability_rules : List AvailabilityRule)
    (time_off_requests : List TimeOffRequest)
    (existing_shifts : List Shift) : Bool × String :=
  if !(employee.department_ids.contains department_id) then
    (false, "Employee not assigned to department " ++ toString department_id)
  else if is_employee_on_time_off employee.id shift_start shift_end time_off_requests then
    (false, "Employee has approved time off")
  else if get_availability_for_slot employee.id ((Int.fdiv shift_start 1440) % 7)
      (shift_start % 1440) (shift_end % 1440) availability_rules
      == some AvailabilityType.UNAVAILABLE then
    (false, "Employee unavailable during this time")
  else if existing_shifts.any (fun ex =>
      ex.employee_id == employee.id &&
      datetime_ranges_overlap shift_start shift_end ex.start_datetime ex.end_datetime) then
    (false, "Conflicts with existing shift")
  else
    (true, "OK")

/-- `get_available_employees_for_slot`: employees who can work the slot,
stably sorted `PREFERRED` first, `AVAILABLE` second, no-rule default last. -/
def get_available_employees_for_slot (employees : List Employee)
    (shift_start shift_end department_id : Int)
    (availability_rules : List AvailabilityRule)
    (time_off_requests : List TimeOffRequest)
    (existing_shifts : List Shift) : List (Employee × Option AvailabilityType) :=
  let available := (employees.filter (fun emp =>
    (can_employee_work_shift emp shift_start shift_end department_id
      availability_rules time_off_requests existing_shifts).1)).map (fun emp =>
    (emp, get_availability_for_slot emp.id ((Int.fdiv shift_start 1440) % 7)
      (shift_start % 1440) (shift_end % 1440) availability_rules))
  let sortKey : Option AvailabilityType → Int := fun a =>
    match a with
    | some AvailabilityType.PREFERRED => 0
    | some AvailabilityType.AVAILABLE => 1
    | _ => 2
  stableSort (fun x y => sortKey x.2 ≤ sortKey y.2) available

/-! ## Constraint validator (`constraints.py`) -/

/-- `get_shifts_covering_time`: shifts active at an instant (half-open
containment), optionally filtered by department. -/
def get_shifts_covering_time (shifts : List Shift) (target_datetime : Int)
    (department_id : Option Int) : List Shift :=
  shifts.filter (fun s =>
    (s.start_datetime ≤ target_datetime && target_datetime < s.end_datetime) &&
    (department_id.isNone || s.department_id == department_id.getD 0))

/-- `check_coverage_at_time`: (met?, current count, required count). -/
def check_coverage_at_time (shifts : List Shift) (requirement : CoverageRequirement)
    (check_datetime : Int) : Bool × Int × Int :=
  let current_count : Int := (get_shifts_covering_time shifts check_datetime
    (some requirement.department_id)).length
  (current_count ≥ requirement.min_staff, current_count, requirement.min_staff)

/-- The instants `start, start + step, ...` strictly below `stop`
(the meaning of the `while current < stop: ... current += step` loops). -/
def sampleTimes (start stop step : Int) : List Int :=
  (List.range (((stop - start) + (step - 1)).fdiv step).toNat).map
    (fun k : Nat => start + step * (k : Int))

/-- `check_coverage_for_window`: samples the requirement window at
30-minute intervals; returns (met?, gap instants). -/
def check_coverage_for_window (shifts : List Shift)
    (requirement : CoverageRequirement) (week_start : Int) : Bool × List Int :=
  let slot_date := week_start + requirement.day_of_week
  let start_dt := slot_date * 1440 + requirement.start_time
  let end_dt := slot_date * 1440 + requirement.end_time
  let gaps := (sampleTimes start_dt end_dt 30).filter (fun t =>
    !(check_coverage_at_time shifts requirement t).1)
  (gaps.isEmpty, gaps)

/-- Python `{e.id: e for e in employees}` lookup: the *last* employee with
the given id wins (later dict insertions override earlier ones). -/
def empMapGet (employees : List Employee) (i : Int) : Option Employee :=
  (employees.reverse).find? (fun e => e.id == i)

/-- `check_role_requirement_at_time` (met? only; the Python reason string
is not consumed by any caller except for its boolean). -/
def check_role_requirement_at_time (shifts : List Shift) (employees : List Employee)
    (requirement : RoleRequirement) (check_datetime : Int) : Bool :=
  let active_shifts :=
    if truthyId requirement.department_id then
      get_shifts_covering_time shifts check_datetime requirement.department_id
    else
      get_shifts_covering_time shifts check_datetime none
  let active_employees := (active_shifts.filterMap (fun s => empMapGet employees s.employee_id))
  if requirement.requires_keyholder && !(active_employees.any (fun e => e.is_keyholder)) then
    false
  else if requirement.requires_manager &&
      ((active_employees.filter (fun e => e.is_manager)).length : Int)
        < requirement.min_manager_count then
    false
  else
    true

/-- The days a role requirement applies to: its own day, or all seven. -/
def roleDays (requirement : RoleRequirement) : List Int :=
  match requirement.day_of_week with
  | some d => [d]
  | none => intRange 0 7

/-- `check_role_requirement_for_window`. -/
def check_role_requirement_for_window (shifts : List Shift) (employees : List Employee)
    (requirement : RoleRequirement) (week_start : Int) : Bool × List Int :=
  let gaps := (roleDays requirement).flatMap (fun day =>
    let slot_date := week_start + day
    let start_dt := slot_date * 1440 + requirement.start_time
    let end_dt := slot_date * 1440 + requirement.end_time
    (sampleTimes start_dt end_dt 30).filter (fun t =>
      !(check_role_requirement_at_time shifts employees requirement t)))
  (gaps.isEmpty, gaps)

/-- `calculate_employee_hours`: total hours assigned to an employee. -/
def calculate_employee_hours (shifts : List Shift) (employee_id : Int) : ℚ :=
  ((shifts.filter (fun s => s.employee_id == employee_id)).map Shift.duration_hours).sum

/-- `check_contracted_hours`: employee id → positive shortfall, in the
employees' order (Python dict insertion order). -/
def check_contracted_hours (shifts : List Shift) (employees : List Employee) :
    List (Int × ℚ) :=
  employees.filterMap (fun emp =>
    let shortfall : ℚ := (emp.contracted_weekly_hours : ℚ) - calculate_employee_hours shifts emp.id
    if shortfall > 0 then some (emp.id, shortfall) else none)

structure ValidationOutcome where
  valid : Bool
  coverage_gaps : List (CoverageRequirement × List Int)
  role_gaps : List (RoleRequirement × List Int)
  hour_shortfalls : List (Int × ℚ)
deriving DecidableEq, Repr

/-- `validate_schedule`: post-hoc validation of a complete shift set. -/
def validate_schedule (context : ScheduleContext) (shifts : List Shift) :
    ValidationOutcome :=
  let coverage_gaps := context.coverage_requirements.filterMap (fun req =>
    let r := check_coverage_for_window shifts req context.week_start
    if !r.1 then some (req, r.2) else none)
  let role_gaps := context.role_requirements.filterMap (fun req =>
    let r := check_role_requirement_for_window shifts context.employees req context.week_start
    if !r.1 then some (req, r.2) else none)
  let hour_shortfalls := check_contracted_hours shifts context.employees
  { valid := coverage_gaps.isEmpty && role_gaps.isEmpty && hour_shortfalls.isEmpty
    coverage_gaps := coverage_gaps
    role_gaps := role_gaps
    hour_shortfalls := hour_shortfalls }

/-! ## Greedy solver (`solver.py`) -/

def MANAGER_SHIFT_LENGTHS : List Int := [8, 4, 6, 10]

def NON_MANAGER_SHIFT_LENGTHS : List Int := [8, 4, 6]

/-- `MIN_REST_HOURS = 12`, in minutes. -/
def MIN_REST_MINUTES : Int := 720

/-- The mutable state of a `ScheduleSolver` instance: the working shift
list (seeded with a copy of the existing shifts) and the per-employee
hour and day-of-week tracking dictionaries. -/
structure SolverState where
  context : ScheduleContext
  shifts : List Shift
  hours : Int → ℚ
  days : Int → List Int

/-- `set.add`: insert a day if absent (so `len` matches the Python set). -/
def daysInsert (days : List Int) (d : Int) : List Int :=
  if days.contains d then days else days ++ [d]

/-- Update the `employee_hours` / `employee_days` tracking for one shift. -/
def SolverState.addTracking (st : SolverState) (s : Shift) : SolverState :=
  { st with
    hours := fun i => if i = s.employee_id then st.hours i + s.duration_hours else st.hours i
    days := fun i => if i = s.employee_id then daysInsert (st.days i) s.dayOfWeek else st.days i }

/-- `ScheduleSolver.__init__`. -/
def initSolverState (context : ScheduleContext) : SolverState :=
  context.existing_shifts.foldl SolverState.addTracking
    { context := context
      shifts := context.existing_shifts
      hours := fun _ => 0
      days := fun _ => [] }

/-- `ScheduleSolver._add_shift`. -/
def SolverState.addShift (st : SolverState) (s : Shift) : SolverState :=
  SolverState.addTracking { st with shifts := st.shifts ++ [s] } s

/-- `ScheduleSolver._has_sufficient_rest`: approximate 12-hour inter-day
rest check against the 06:00 earliest start / 22:00 "latest reasonable
end" of the target day. -/
def hasSufficientRest (st : SolverState) (employee_id target_date : Int) : Bool :=
  st.shifts.all (fun s =>
    if s.employee_id != employee_id then true
    else
      let shift_date := Int.fdiv s.start_datetime 1440
      let okBefore :=
        if shift_date == target_date - 1 then
          !((target_date * 1440 + 360) - s.end_datetime < MIN_REST_MINUTES)
        else true
      let okAfter :=
        if shift_date == target_date + 1 then
          !(s.start_datetime - (target_date * 1440 + 1320) < MIN_REST_MINUTES)
        else true
      okBefore && okAfter)

/-- The instants `start, start + step, ..` up to and *including* `stop`
(the `while current <= latest_start` sweep of `_find_valid_shift_time`). -/
def sampleTimesLe (start stop step : Int) : List Int :=
  (List.range (((stop - start).fdiv step) + 1).toNat).map
    (fun k : Nat => start + step * (k : Int))

/-- `ScheduleSolver._find_valid_shift_time`: sweep start times in 30-min
increments, keeping the candidate with the largest (strictly improving)
overlap with the coverage window. -/
def findValidShiftTime (st : SolverState) (employee : Employee)
    (department_id target_date length_hours window_start window_end must_cover : Int) :
    Option Shift :=
  let length := length_hours * 60
  let day_start := target_date * 1440 + 360
  let day_end := target_date * 1440 + 1320
  let earliest_start := max (must_cover - length + 30) day_start
  let latest_start := min must_cover (day_end - length)
  if earliest_start > latest_start then none
  else
    let best := (sampleTimesLe earliest_start latest_start 30).foldl
      (fun (acc : Int × Option Int) current_start =>
        let shift_end := current_start + length
        if (can_employee_work_shift employee current_start shift_end department_id
            st.context.availability_rules st.context.time_off_requests st.shifts).1 then
          let overlap := min shift_end window_end - max current_start window_start
          if overlap > acc.1 then (overlap, some current_start) else acc
        else acc) (0, none)
    match best.2 with
    | some best_start =>
      some { employee_id := employee.id
             store_id := st.context.store_id
             department_id := department_id
             start_datetime := best_start
             end_datetime := best_start + length }
    | none => none

/-- `ScheduleSolver._score_shift`. -/
def scoreShift (st : SolverState) (shift : Shift) (employee : Employee)
    (department_id : Int) : ℚ :=
  let dept_min_staff := listMaxD
    ((st.context.coverage_requirements.filter
      (fun req => req.department_id == department_id)).map
      (fun req => req.min_staff)) 1
  let deptScore : ℚ := (dept_min_staff : ℚ) * 5
  let primaryScore : ℚ :=
    if employee.primary_department_id == some department_id then 25 else -15
  let avail := get_availability_for_slot employee.id shift.dayOfWeek
    (shift.start_datetime % 1440) (shift.end_datetime % 1440)
    st.context.availability_rules
  let availScore : ℚ :=
    if avail == some AvailabilityType.PREFERRED then 15
    else if avail == some AvailabilityType.AVAILABLE then 5
    else 0
  let length := shift.duration_hours
  let lengthScore : ℚ :=
    if length == 8 then 10 else if length == 4 then 7
    else if length == 6 then 5 else if length == 10 then 3 else 0
  let needed : ℚ := (employee.contracted_weekly_hours : ℚ) - st.hours employee.id
  let hoursScore : ℚ :=
    if needed > 0 then (min shift.duration_hours needed) * 2
    else -(shift.duration_hours * 3)
  let days_worked := (st.days employee.id).length
  let daysScore : ℚ := if days_worked ≥ 5 then -20 else if days_worked ≥ 4 then -5 else 0
  deptScore + primaryScore + availScore + lengthScore + hoursScore + daysScore

/-- `ScheduleSolver._find_best_shift_for_time`: score all valid
(employee, length) candidates and return the best (stable sort on
descending score, so the first-enumerated candidate wins ties). -/
def findBestShiftForTime (st : SolverState)
    (target_time department_id window_start window_end : Int) : Option Shift :=
  let day_of_week := (Int.fdiv target_time 1440) % 7
  let target_date := Int.fdiv target_time 1440
  let candidates := st.context.employees.filter
    (fun e => e.department_ids.contains department_id)
  let scored := candidates.flatMap (fun emp =>
    if (st.days emp.id).contains day_of_week then []
    else if !(hasSufficientRest st emp.id target_date) then []
    else
      let allowed := if emp.is_manager then MANAGER_SHIFT_LENGTHS
        else NON_MANAGER_SHIFT_LENGTHS
      allowed.filterMap (fun length =>
        (findValidShiftTime st emp department_id target_date length
          window_start window_end target_time).map
          (fun shift => (scoreShift st shift emp department_id, shift))))
  match stableSort (fun a b => b.1 ≤ a.1) scored with
  | [] => none
  | best :: _ => some best.2

/-- The `for _ in range(needed)` loop of `_cover_single_requirement`:
repeatedly find the best shift for the gap instant and add it. -/
def addNeeded (target_time department_id window_start window_end : Int) :
    Nat → SolverState → SolverState
  | 0, st => st
  | n + 1, st =>
    let st2 := match findBestShiftForTime st target_time department_id
        window_start window_end with
      | some shift => st.addShift shift
      | none => st
    addNeeded target_time department_id window_start window_end n st2

/-- `ScheduleSolver._cover_single_requirement`. -/
def coverSingleRequirement (st : SolverState) (req : CoverageRequirement) :
    SolverState :=
  let slot_date := st.context.week_start + req.day_of_week
  let window_start := slot_date * 1440 + req.start_time
  let window_end := slot_date * 1440 + req.end_time
  (sampleTimes window_start window_end 30).foldl (fun st current =>
    let r := check_coverage_at_time st.shifts req current
    if !r.1 then
      addNeeded current req.department_id window_start window_end
        (r.2.2 - r.2.1).toNat st
    else st) st

/-- The key of `_sort_requirements_by_constraint`:
(available/min_staff ratio, -min_staff). -/
def constraintScore (st : SolverState) (req : CoverageRequirement) : ℚ × Int :=
  let slot_date := st.context.week_start + req.day_of_week
  let start_dt := slot_date * 1440 + req.start_time
  let end_dt := slot_date * 1440 + req.end_time
  let available := get_available_employees_for_slot st.context.employees
    start_dt end_dt req.department_id st.context.availability_rules
    st.context.time_off_requests st.shifts
  (((available.length : Int) : ℚ) / ((max req.min_staff 1 : Int) : ℚ), -req.min_staff)

/-- Lexicographic `≤` on the sort key, as a total preorder for the
stable sort. -/
def keyLe (a b : ℚ × Int) : Bool :=
  a.1 < b.1 || (a.1 == b.1 && a.2 ≤ b.2)

/-- `ScheduleSolver._sort_requirements_by_constraint`. -/
def sortRequirementsByConstraint (st : SolverState) : List CoverageRequirement :=
  stableSort (fun a b => keyLe (constraintScore st a) (constraintScore st b))
    st.context.coverage_requirements

/-- `ScheduleSolver._cover_requirements`: two passes over the sorted
requirement list. -/
def coverRequirements (st : SolverState) : SolverState :=
  let sorted_reqs := sortRequirementsByConstraint st
  sorted_reqs.foldl coverSingleRequirement (sorted_reqs.foldl coverSingleRequirement st)

/-- `ScheduleSolver._find_role_shift`. -/
def findRoleShift (st : SolverState) (req : RoleRequirement)
    (target_time window_start window_end day_of_week : Int) : Option Shift :=
  let target_date := Int.fdiv target_time 1440
  let candidates := st.context.employees.filter (fun emp =>
    !(req.requires_keyholder && !emp.is_keyholder) &&
    !(req.requires_manager && !emp.is_manager))
  let scored := candidates.flatMap (fun emp =>
    if (st.days emp.id).contains day_of_week then []
    else if !(hasSufficientRest st emp.id target_date) then []
    else
      let dept_id : Option Int :=
        if truthyId req.department_id then
          (if emp.department_ids.contains (req.department_id.getD 0) then
            req.department_id
          else none)
        else if truthyId emp.primary_department_id then emp.primary_department_id
        else emp.department_ids.head?
      match dept_id with
      | none => []
      | some d =>
        if !(truthyId (some d)) then []
        else
          let allowed := if emp.is_manager then MANAGER_SHIFT_LENGTHS
            else NON_MANAGER_SHIFT_LENGTHS
          allowed.filterMap (fun length =>
            (findValidShiftTime st emp d target_date length
              window_start window_end target_time).map
              (fun shift => (scoreShift st shift emp d + 20, shift))))
  match stableSort (fun a b => b.1 ≤ a.1) scored with
  | [] => none
  | best :: _ => some best.2

/-- `ScheduleSolver._satisfy_single_role_requirement`. -/
def satisfySingleRoleRequirement (st : SolverState) (req : RoleRequirement) :
    SolverState :=
  (roleDays req).foldl (fun st day =>
    let slot_date := st.context.week_start + day
    let window_start := slot_date * 1440 + req.start_time
    let window_end := slot_date * 1440 + req.end_time
    (sampleTimes window_start window_end 30).foldl (fun st current =>
      if !(check_role_requirement_at_time st.shifts st.context.employees req current) then
        match findRoleShift st req current window_start window_end day with
        | some shift => st.addShift shift
        | none => st
      else st) st) st

/-- `ScheduleSolver._satisfy_role_requirements`. -/
def satisfyRoleRequirements (st : SolverState) : SolverState :=
  st.context.role_requirements.foldl satisfySingleRoleRequirement st

/-- `ScheduleSolver._find_open_shift`: first admissible (department, hour)
shift of the given length on the target day; departments are the primary
first (when truthy), then the assigned ones in order; hours are 06:00 to
18:00 starts. -/
def findOpenShift (st : SolverState) (employee : Employee)
    (target_date length_hours : Int) : Option Shift :=
  let length := length_hours * 60
  let depts0 : List Int :=
    if truthyId employee.primary_department_id then
      [employee.primary_department_id.getD 0]
    else []
  let departments_to_try := employee.department_ids.foldl
    (fun acc d => if acc.contains d then acc else acc ++ [d]) depts0
  departments_to_try.findSome? (fun dept_id =>
    (intRange 6 19).findSome? (fun hour =>
      let start := target_date * 1440 + hour * 60
      let stop := start + length
      if (can_employee_work_shift employee start stop dept_id
          st.context.availability_rules st.context.time_off_requests st.shifts).1 then
        some { employee_id := employee.id
               store_id := st.context.store_id
               department_id := dept_id
               start_datetime := start
               end_datetime := stop }
      else none))

/-- `ScheduleSolver._fill_employee_hours`: walk the seven days, skipping
days already worked and days without rest, adding the first open shift
trying lengths longest-first, until `needed` is exhausted. -/
def fillEmployeeHours (st : SolverState) (employee : Employee) (needed : ℚ) :
    SolverState :=
  ((intRange 0 7).foldl (fun (acc : SolverState × ℚ) day =>
    if acc.2 ≤ 0 then acc
    else if (acc.1.days employee.id).contains day then acc
    else
      let target_date := acc.1.context.week_start + day
      if !(hasSufficientRest acc.1 employee.id target_date) then acc
      else
        let lengths := stableSort (fun a b => b ≤ a)
          (if employee.is_manager then MANAGER_SHIFT_LENGTHS
           else NON_MANAGER_SHIFT_LENGTHS)
        match lengths.findSome? (fun length =>
            findOpenShift acc.1 employee target_date length) with
        | some shift => (acc.1.addShift shift, acc.2 - shift.duration_hours)
        | none => acc) (st, needed)).1

/-- The employees still under their contracted hours, with their needs. -/
def needingHours (st : SolverState) : List (Employee × ℚ) :=
  (st.context.employees.filter (fun emp =>
    st.hours emp.id < (emp.contracted_weekly_hours : ℚ))).map (fun emp =>
    (emp, (emp.contracted_weekly_hours : ℚ) - st.hours emp.id))

/-- One-or-more passes of `_fill_contracted_hours` (`for _ in range(3)`
with early exit when nobody needs hours). -/
def fillPass : Nat → SolverState → SolverState
  | 0, st => st
  | n + 1, st =>
    let needing := needingHours st
    if needing.isEmpty then st
    else
      fillPass n ((stableSort (fun a b => b.2 ≤ a.2) needing).foldl
        (fun st p => fillEmployeeHours st p.1 p.2) st)

/-- `ScheduleSolver._fill_contracted_hours`. -/
def fillContractedHours (st : SolverState) : SolverState :=
  fillPass 3 st

/-- `ScheduleSolver._retry_coverage_gaps`. -/
def retryCoverageGaps (st : SolverState) : SolverState :=
  (sortRequirementsByConstraint st).foldl coverSingleRequirement st

/-- `ScheduleSolver._build_result`: validate, derive the unmet lists and
warnings, and return only the shifts not keyed by an existing shift. -/
def buildResult (st : SolverState) : ScheduleResult :=
  let validation := validate_schedule st.context st.shifts
  let unmet_coverage := validation.coverage_gaps.map Prod.fst
  let unmet_roles := validation.role_gaps.map Prod.fst
  let warnings :=
    (if !unmet_coverage.isEmpty then
      [toString unmet_coverage.length ++ " coverage requirements not fully met"]
    else []) ++
    (if !unmet_roles.isEmpty then
      [toString unmet_roles.length ++ " role requirements not fully met"]
    else []) ++
    (if !validation.hour_shortfalls.isEmpty then
      [toString validation.hour_shortfalls.length ++ " employees under contracted hours"]
    else [])
  let existing_keys := st.context.existing_shifts.map (fun s =>
    (s.employee_id, s.start_datetime, s.end_datetime))
  let new_shifts := st.shifts.filter (fun s =>
    !(existing_keys.contains (s.employee_id, s.start_datetime, s.end_datetime)))
  { success := validation.valid
    shifts := new_shifts
    unmet_coverage := unmet_coverage
    unmet_role_requirements := unmet_roles
    unmet_contracted_hours := validation.hour_shortfalls
    warnings := warnings }

/-- `solve_schedule` (greedy entry point, `solver.py`):
the five phases of `ScheduleSolver.solve`. -/
def solve_schedule (context : ScheduleContext) : ScheduleResult :=
  buildResult (retryCoverageGaps (fillContractedHours (satisfyRoleRequirements
    (coverRequirements (initSolverState context)))))

/-! ## CP-SAT solver (`or_solver.py`)

The CP-SAT backend itself is external; the embedding models the parts the
source constructs and consumes: the admissible decision-variable keys, the
hard constraints imposed on an assignment, the objective (with the slack,
shortfall and overtime variables resolved to the values the model forces
at an optimum: `AddMaxEquality` pins shortfall/overtime exactly, and the
negatively-weighted slack of each `sum + slack >= needed` constraint is
minimal in any objective-maximal solution), the extraction of shifts from
a returned assignment, and the construction of the `ScheduleResult`. -/

def SLOT_DURATION_MINUTES : Int := 60

def SLOTS_PER_HOUR : Int := Int.fdiv 60 SLOT_DURATION_MINUTES

def DAY_START_HOUR : Int := 6

def DAY_END_HOUR : Int := 22

def SLOTS_PER_DAY : Int := (DAY_END_HOUR - DAY_START_HOUR) * SLOTS_PER_HOUR

def MIN_SHIFT_HOURS : Int := 4

def MAX_REGULAR_HOURS : Int := 9

def MAX_MANAGER_HOURS : Int := 12

def WEIGHT_UNMET_COVERAGE_SLOT : Int := -1000

def WEIGHT_UNMET_ROLE_SLOT : Int := -1000

def WEIGHT_UNMET_CONTRACTED_HOUR : Int := -100

def WEIGHT_OVERTIME_HOUR : Int := -3

def WEIGHT_PRIMARY_DEPT : Int := 25

def WEIGHT_NON_PRIMARY_DEPT : Int := -15

def WEIGHT_PREFERRED_AVAIL : Int := 15

def WEIGHT_SHIFT_8H : Int := 10

def WEIGHT_SHIFT_6H : Int := 8

def WEIGHT_SHIFT_4H : Int := 7

def WEIGHT_SHIFT_OTHER : Int := 5

/-- `slot_to_time`: minutes after midnight of slot index `slot`
(slot 0 = 06:00). -/
def slot_to_time (slot : Int) : Int :=
  DAY_START_HOUR * 60 + slot * SLOT_DURATION_MINUTES

/-- `time_to_slot` (Python floor division). -/
def time_to_slot (t : Int) : Int :=
  Int.fdiv (t - DAY_START_HOUR * 60) SLOT_DURATION_MINUTES

/-- `get_valid_shift_lengths`: shift lengths in slots
(`range(min_slots, max_slots + 1, SLOTS_PER_HOUR)` with
`SLOTS_PER_HOUR = 1`). -/
def get_valid_shift_lengths (is_manager : Bool) : List Int :=
  let max_hours := if is_manager then MAX_MANAGER_HOURS else MAX_REGULAR_HOURS
  intRange (MIN_SHIFT_HOURS * SLOTS_PER_HOUR) (max_hours * SLOTS_PER_HOUR + 1)

/-- `_get_shift_length_bonus`. -/
def get_shift_length_bonus (length_slots : Int) : Int :=
  let hours := Int.fdiv length_slots SLOTS_PER_HOUR
  if hours == 8 then WEIGHT_SHIFT_8H
  else if hours == 6 then WEIGHT_SHIFT_6H
  else if hours == 4 then WEIGHT_SHIFT_4H
  else WEIGHT_SHIFT_OTHER

/-- `_build_availability_matrix`, available entry: the slot is not
classified `UNAVAILABLE`, not on time off, and free of existing-shift
conflicts. -/
def orSlotAvailable (context : ScheduleContext) (employee : Employee)
    (day slot : Int) : Bool :=
  let slot_start := slot_to_time slot
  let slot_end := slot_to_time (slot + 1)
  let avail := get_availability_for_slot employee.id day slot_start slot_end
    context.availability_rules
  if avail == some AvailabilityType.UNAVAILABLE then false
  else
    let slot_date := context.week_start + day
    let slot_start_dt := slot_date * 1440 + slot_start
    let slot_end_dt := slot_date * 1440 + slot_end
    if is_employee_on_time_off employee.id slot_start_dt slot_end_dt
        context.time_off_requests then false
    else !(context.existing_shifts.any (fun ex =>
      ex.employee_id == employee.id &&
      datetime_ranges_overlap slot_start_dt slot_end_dt
        ex.start_datetime ex.end_datetime))

/-- `_build_availability_matrix`, preferred entry. -/
def orSlotPreferred (context : ScheduleContext) (employee : Employee)
    (day slot : Int) : Bool :=
  orSlotAvailable context employee day slot &&
    (get_availability_for_slot employee.id day (slot_to_time slot)
      (slot_to_time (slot + 1)) context.availability_rules
      == some AvailabilityType.PREFERRED)

/-- `_get_existing_hours`. -/
def orExistingHours (employee_id : Int) (existing_shifts : List Shift) : ℚ :=
  ((existing_shifts.filter (fun s => s.employee_id == employee_id)).map
    Shift.duration_hours).sum

/-- `_get_existing_days` (as a list; only membership is consumed). -/
def orExistingDays (employee_id : Int) (existing_shifts : List Shift) : List Int :=
  (existing_shifts.filter (fun s => s.employee_id == employee_id)).map Shift.dayOfWeek

/-- A CP-SAT decision-variable key
`(emp_id, day, start_slot, length, dept_id)`. -/
structure OrKey where
  emp_id : Int
  day : Int
  start_slot : Int
  length : Int
  dept_id : Int
deriving DecidableEq, Repr

/-- The admissible decision-variable keys, in the order the source
inserts them into `shift_vars`: days with any existing shift are skipped
outright, every covered slot must be available, and one key is created
per assigned department. -/
def orShiftKeys (context : ScheduleContext) : List OrKey :=
  context.employees.flatMap (fun emp =>
    let valid_lengths := get_valid_shift_lengths emp.is_manager
    (intRange 0 7).flatMap (fun day =>
      if (orExistingDays emp.id context.existing_shifts).contains day then []
      else
        (intRange 0 SLOTS_PER_DAY).flatMap (fun start_slot =>
          valid_lengths.flatMap (fun length =>
            if start_slot + length > SLOTS_PER_DAY then []
            else if !((intRange start_slot (start_slot + length)).all
                (fun s => orSlotAvailable context emp day s)) then []
            else emp.department_ids.map (fun dept_id =>
              { emp_id := emp.id, day := day, start_slot := start_slot
                length := length, dept_id := dept_id })))))

/-- `shift_covers_slot`. -/
def shiftCoversSlot (k : OrKey) (slot : Int) : Bool :=
  k.start_slot ≤ slot && slot < k.start_slot + k.length

/-- Rest in minutes between a shift ending at `end_minutes` (within its
day) and one starting at `start_minutes` the next day, wrapping
midnight — as the source computes it. -/
def restMinutes (end_minutes start_minutes : Int) : Int :=
  (24 * 60 - end_minutes) + start_minutes

/-- End minute (within the day) of a new-shift key. -/
def OrKey.endMinutes (k : OrKey) : Int :=
  DAY_START_HOUR * 60 + (k.start_slot + k.length) * SLOT_DURATION_MINUTES

/-- Start minute (within the day) of a new-shift key. -/
def OrKey.startMinutes (k : OrKey) : Int :=
  DAY_START_HOUR * 60 + k.start_slot * SLOT_DURATION_MINUTES

/-- The hard constraints the source adds to the model, as a predicate on
a 0/1 assignment of the decision variables. -/
structure OrFeasible (context : ScheduleContext) (sol : OrKey → Bool) : Prop where
  at_most_one : ∀ e ∈ context.employees, ∀ day : Int,
    (((orShiftKeys context).filter (fun k => k.emp_id == e.id && k.day == day)).filter
      (fun k => sol k)).length ≤ 1
  rest_new_new : ∀ e ∈ context.employees, ∀ day ∈ intRange 0 6,
    ∀ k1 ∈ (orShiftKeys context).filter (fun k => k.emp_id == e.id && k.day == day),
    ∀ k2 ∈ (orShiftKeys context).filter (fun k => k.emp_id == e.id && k.day == day + 1),
    restMinutes k1.endMinutes k2.startMinutes < MIN_REST_MINUTES →
    ¬(sol k1 = true ∧ sol k2 = true)
  rest_existing_new : ∀ e ∈ context.employees, ∀ day ∈ intRange 0 6,
    ∀ ex ∈ context.existing_shifts.filter
      (fun s => s.employee_id == e.id && s.dayOfWeek == day),
    ∀ k2 ∈ (orShiftKeys context).filter (fun k => k.emp_id == e.id && k.day == day + 1),
    restMinutes (ex.end_datetime % 1440) k2.startMinutes < MIN_REST_MINUTES →
    sol k2 = false
  rest_new_existing : ∀ e ∈ context.employees, ∀ day ∈ intRange 0 6,
    ∀ ex ∈ context.existing_shifts.filter
      (fun s => s.employee_id == e.id && s.dayOfWeek == day + 1),
    ∀ k1 ∈ (orShiftKeys context).filter (fun k => k.emp_id == e.id && k.day == day),
    restMinutes k1.endMinutes (ex.start_datetime % 1440) < MIN_REST_MINUTES →
    sol k1 = false

/-- The shift a chosen decision variable becomes (absolute dates and
wall-clock times derived from `week_start`, day and slot). -/
def orKeyShift (context : ScheduleContext) (k : OrKey) : Shift :=
  let slot_date := context.week_start + k.day
  { employee_id := k.emp_id
    store_id := context.store_id
    department_id := k.dept_id
    start_datetime := slot_date * 1440 + slot_to_time k.start_slot
    end_datetime := slot_date * 1440 + slot_to_time (k.start_slot + k.length) }

/-- Extraction of the shifts of an assignment (`solver.Value(var) == 1`),
in `shift_vars` insertion order. -/
def orExtractShifts (context : ScheduleContext) (sol : OrKey → Bool) : List Shift :=
  ((orShiftKeys context).filter (fun k => sol k)).map (orKeyShift context)

/-- `_check_unmet_coverage`: 60-minute, slot-aligned sampling over the
union of new and existing shifts. -/
def orCheckUnmetCoverage (shifts : List Shift) (context : ScheduleContext) :
    List CoverageRequirement :=
  let all_shifts := shifts ++ context.existing_shifts
  context.coverage_requirements.filter (fun req =>
    let slot_date := context.week_start + req.day_of_week
    (intRange (time_to_slot req.start_time) (time_to_slot req.end_time)).any (fun slot =>
      let slot_dt := slot_date * 1440 + slot_to_time slot
      ((all_shifts.filter (fun s =>
        s.department_id == req.department_id &&
        s.start_datetime ≤ slot_dt && slot_dt < s.end_datetime)).length : Int)
        < req.min_staff))

/-- `_check_unmet_roles`: 60-minute slot sampling; note the department of
the requirement is not consulted. -/
def orCheckUnmetRoles (shifts : List Shift) (context : ScheduleContext) :
    List RoleRequirement :=
  let all_shifts := shifts ++ context.existing_shifts
  context.role_requirements.filter (fun req =>
    (roleDays req).any (fun day =>
      let slot_date := context.week_start + day
      (intRange (time_to_slot req.start_time) (time_to_slot req.end_time)).any (fun slot =>
        let slot_dt := slot_date * 1440 + slot_to_time slot
        let active_emps := (all_shifts.filter (fun s =>
          s.start_datetime ≤ slot_dt && slot_dt < s.end_datetime)).filterMap
          (fun s => empMapGet context.employees s.employee_id)
        (req.requires_keyholder && !(active_emps.any (fun e => e.is_keyholder))) ||
        (req.requires_manager &&
          ((active_emps.filter (fun e => e.is_manager)).length : Int)
            < req.min_manager_count))))

/-- `_check_unmet_hours`: 0.01-hour tolerance on the shortfall. -/
def orCheckUnmetHours (shifts : List Shift) (context : ScheduleContext) :
    List (Int × ℚ) :=
  context.employees.filterMap (fun emp =>
    let new_hours := ((shifts.filter (fun s => s.employee_id == emp.id)).map
      Shift.duration_hours).sum
    let total := new_hours + orExistingHours emp.id context.existing_shifts
    let shortfall := (emp.contracted_weekly_hours : ℚ) - total
    if shortfall > 1/100 then some (emp.id, shortfall) else none)

/-- The `ScheduleResult` the CP-SAT path builds from extracted shifts on
an `OPTIMAL`/`FEASIBLE` status (`feasible_not_optimal` selects the
time-limit warning). -/
def orBuildResult (context : ScheduleContext) (shifts : List Shift)
    (feasible_not_optimal : Bool) : ScheduleResult :=
  let unmet_coverage := orCheckUnmetCoverage shifts context
  let unmet_roles := orCheckUnmetRoles shifts context
  let unmet_hours := orCheckUnmetHours shifts context
  { success := unmet_coverage.isEmpty && unmet_roles.isEmpty && unmet_hours.isEmpty
    shifts := shifts
    unmet_coverage := unmet_coverage
    unmet_role_requirements := unmet_roles
    unmet_contracted_hours := unmet_hours
    warnings := if feasible_not_optimal then
      ["Solution may not be optimal (time limit reached)"] else [] }

/-- The `ScheduleResult` the CP-SAT path builds when the backend status is
neither `OPTIMAL` nor `FEASIBLE`. -/
def orNoSolutionResult (status_name : String) : ScheduleResult :=
  { success := false
    shifts := []
    unmet_coverage := []
    unmet_role_requirements := []
    unmet_contracted_hours := []
    warnings := ["Solver status: " ++ status_name ++ " - no valid schedule found"] }

/-- 0/1 indicator of a chosen variable. -/
def boolInd (b : Bool) : Int :=
  if b then 1 else 0

/-- `sum(covering_vars)` under an assignment. -/
def countChosen (keys : List OrKey) (sol : OrKey → Bool) : Int :=
  ((keys.filter (fun k => sol k)).length : Int)

/-- Python `int(...)` truncation (toward zero) of a float. -/
def pythonInt (q : ℚ) : Int :=
  Int.tdiv q.num (q.den : Int)

/-- Objective contribution of section 3 (coverage): for each requirement
slot with residual need, the slack penalty (slack resolved to its minimal,
hence optimal, value `max 0 (needed - covered)`), or the constant penalty
when no variable can cover the slot. -/
def orCoverageObjectiveTerms (context : ScheduleContext) (sol : OrKey → Bool) : Int :=
  (context.coverage_requirements.map (fun req =>
    ((intRange (time_to_slot req.start_time) (time_to_slot req.end_time)).map (fun slot =>
      let slot_dt := (context.week_start + req.day_of_week) * 1440 + slot_to_time slot
      let existing_coverage : Int := ((context.existing_shifts.filter (fun s =>
        s.department_id == req.department_id &&
        s.start_datetime ≤ slot_dt && slot_dt < s.end_datetime)).length : Int)
      let covering_vars := context.employees.flatMap (fun emp =>
        if !(emp.department_ids.contains req.department_id) then []
        else (orShiftKeys context).filter (fun k =>
          k.emp_id == emp.id && k.day == req.day_of_week &&
          k.dept_id == req.department_id && shiftCoversSlot k slot))
      let needed := req.min_staff - existing_coverage
      if needed > 0 then
        if !covering_vars.isEmpty then
          WEIGHT_UNMET_COVERAGE_SLOT * max 0 (needed - countChosen covering_vars sol)
        else WEIGHT_UNMET_COVERAGE_SLOT * needed
      else 0)).sum)).sum

/-- Objective contribution of section 4 (roles), slack again minimal. -/
def orRoleObjectiveTerms (context : ScheduleContext) (sol : OrKey → Bool) : Int :=
  (context.role_requirements.map (fun req =>
    ((roleDays req).map (fun day =>
      ((intRange (time_to_slot req.start_time) (time_to_slot req.end_time)).map (fun slot =>
        let slot_dt := (context.week_start + day) * 1440 + slot_to_time slot
        let active_emps := (context.existing_shifts.filter (fun s =>
          s.start_datetime ≤ slot_dt && slot_dt < s.end_datetime)).filterMap
          (fun s => empMapGet context.employees s.employee_id)
        let existing_keyholders : Int := ((active_emps.filter
          (fun e => e.is_keyholder)).length : Int)
        let existing_managers : Int := ((active_emps.filter
          (fun e => e.is_manager)).length : Int)
        let keyTerm :=
          if req.requires_keyholder && existing_keyholders == 0 then
            let keyholder_vars := context.employees.flatMap (fun emp =>
              if !emp.is_keyholder then []
              else (orShiftKeys context).filter (fun k =>
                k.emp_id == emp.id && k.day == day && shiftCoversSlot k slot))
            if !keyholder_vars.isEmpty then
              WEIGHT_UNMET_ROLE_SLOT * max 0 (1 - countChosen keyholder_vars sol)
            else WEIGHT_UNMET_ROLE_SLOT
          else 0
        let needed_managers := req.min_manager_count - existing_managers
        let mgrTerm :=
          if req.requires_manager && needed_managers > 0 then
            let manager_vars := context.employees.flatMap (fun emp =>
              if !emp.is_manager then []
              else (orShiftKeys context).filter (fun k =>
                k.emp_id == emp.id && k.day == day && shiftCoversSlot k slot))
            if !manager_vars.isEmpty then
              WEIGHT_UNMET_ROLE_SLOT * max 0 (needed_managers - countChosen manager_vars sol)
            else WEIGHT_UNMET_ROLE_SLOT * needed_managers
          else 0
        keyTerm + mgrTerm)).sum)).sum)).sum

/-- `sum(length * var)` over an employee's variables. -/
def orTotalNewSlots (context : ScheduleContext) (emp_id : Int) (sol : OrKey → Bool) : Int :=
  (((orShiftKeys context).filter (fun k => k.emp_id == emp_id)).map
    (fun k => k.length * boolInd (sol k))).sum

/-- Objective contributions of sections 5 and 6 (contracted-hour
shortfall and overtime): `AddMaxEquality` pins both variables to the
exact `max 0 _` value. -/
def orHoursObjectiveTerms (context : ScheduleContext) (sol : OrKey → Bool) : Int :=
  (context.employees.map (fun emp =>
    let required_slots := emp.contracted_weekly_hours * SLOTS_PER_HOUR
    let existing_slots := pythonInt
      (orExistingHours emp.id context.existing_shifts * (SLOTS_PER_HOUR : ℚ))
    let needed_slots := required_slots - existing_slots
    let emp_keys := (orShiftKeys context).filter (fun k => k.emp_id == emp.id)
    let total_new := orTotalNewSlots context emp.id sol
    let shortTerm :=
      if needed_slots ≤ 0 then 0
      else if emp_keys.isEmpty then 0
      else (Int.fdiv WEIGHT_UNMET_CONTRACTED_HOUR SLOTS_PER_HOUR) *
        max 0 (needed_slots - total_new)
    let otTerm :=
      if emp_keys.isEmpty then 0
      else (Int.fdiv WEIGHT_OVERTIME_HOUR SLOTS_PER_HOUR) *
        max 0 (total_new + existing_slots - required_slots)
    shortTerm + otTerm)).sum

/-- Objective contribution of section 7 (department preference). -/
def orDeptTerms (context : ScheduleContext) (sol : OrKey → Bool) : Int :=
  (((orShiftKeys context).map (fun k =>
    match empMapGet context.employees k.emp_id with
    | none => 0
    | some emp =>
      (if emp.primary_department_id == some k.dept_id then WEIGHT_PRIMARY_DEPT
       else WEIGHT_NON_PRIMARY_DEPT) * boolInd (sol k)))).sum

/-- Objective contribution of section 8 (fully-preferred windows). -/
def orPrefTerms (context : ScheduleContext) (sol : OrKey → Bool) : Int :=
  (((orShiftKeys context).map (fun k =>
    match empMapGet context.employees k.emp_id with
    | none => 0
    | some emp =>
      if (intRange k.start_slot (k.start_slot + k.length)).all
          (fun s => orSlotPreferred context emp k.day s) then
        WEIGHT_PREFERRED_AVAIL * boolInd (sol k)
      else 0))).sum

/-- Objective contribution of section 9 (shift length preference). -/
def orLenTerms (context : ScheduleContext) (sol : OrKey → Bool) : Int :=
  (((orShiftKeys context).map (fun k =>
    get_shift_length_bonus k.length * boolInd (sol k)))).sum

/-- The full maximised objective. -/
def orObjective (context : ScheduleContext) (sol : OrKey → Bool) : Int :=
  orCoverageObjectiveTerms context sol + orRoleObjectiveTerms context sol +
  orHoursObjectiveTerms context sol + orDeptTerms context sol +
  orPrefTerms context sol + orLenTerms context sol

/-- An assignment the backend can return on `OPTIMAL`: feasible and
objective-maximal. -/
def OrOptimal (context : ScheduleContext) (sol : OrKey → Bool) : Prop :=
  OrFeasible context sol ∧
    ∀ sol2 : OrKey → Bool, OrFeasible context sol2 →
      orObjective context sol2 ≤ orObjective context sol

/-! ## Data loader and orchestrator (`data_loader.py`, `generator.py`) -/

inductive EmploymentStatus where
  | ACTIVE
  | LEAVER
  | ON_LEAVE
deriving DecidableEq, Repr

inductive TimeOffStatus where
  | APPROVED
  | PENDING
  | REJECTED
  | CANCELLED
deriving DecidableEq, Repr

inductive ShiftStatus where
  | DRAFT
  | PUBLISHED
  | CANCELLED
deriving DecidableEq, Repr

structure EmployeesRow where
  id : Int
  store_id : Int
  employment_status : EmploymentStatus
  is_keyholder : Bool
  is_manager : Bool
  contracted_weekly_hours : Int
deriving DecidableEq, Repr

structure EmployeeDepartmentsRow where
  employee_id : Int
  department_id : Int
  is_primary : Bool
deriving DecidableEq, Repr

structure AvailabilityRulesRow where
  employee_id : Int
  day_of_week : Int
  rule_type : AvailabilityType
  start_time_local : Option Int
  end_time_local : Option Int
  active : Bool
deriving DecidableEq, Repr

structure TimeOffRequestsRow where
  employee_id : Int
  status : TimeOffStatus
  start_date : Int
  end_date : Int
deriving DecidableEq, Repr

structure CoverageRequirementsRow where
  id : Int
  store_id : Int
  department_id : Int
  day_of_week : Int
  start_time_local : Int
  end_time_local : Int
  min_staff : Int
  max_staff : Option Int
  active : Bool
deriving DecidableEq, Repr

structure RoleRequirementsRow where
  id : Int
  store_id : Int
  department_id : Option Int
  day_of_week : Option Int
  start_time_local : Int
  end_time_local : Int
  requires_keyholder : Bool
  requires_manager : Bool
  min_manager_count : Int
  active : Bool
deriving DecidableEq, Repr

structure ShiftsRow where
  employee_id : Int
  store_id : Int
  department_id : Int
  start_datetime_utc : Int
  end_datetime_utc : Int
  status : ShiftStatus
deriving DecidableEq, Repr

/-- The persistent rows the loader queries. -/
structure DbSnapshot where
  employees : List EmployeesRow
  employee_departments : List EmployeeDepartmentsRow
  availability_rules : List AvailabilityRulesRow
  time_off_requests : List TimeOffRequestsRow
  coverage_requirements : List CoverageRequirementsRow
  role_requirements : List RoleRequirementsRow
  shifts : List ShiftsRow
deriving DecidableEq, Repr

/-- `load_employees`: `ACTIVE` employees of the store, with department
assignments and the first `is_primary` department (else the first
assigned, else none). -/
def load_employees (db : DbSnapshot) (store_id : Int) : List Employee :=
  (db.employees.filter (fun e =>
    e.store_id == store_id && e.employment_status == EmploymentStatus.ACTIVE)).map
    (fun emp =>
      let dept_rows := db.employee_departments.filter
        (fun d => d.employee_id == emp.id)
      let department_ids := dept_rows.map (fun d => d.department_id)
      let primary_dept := match dept_rows.find? (fun d => d.is_primary) with
        | some d => some d.department_id
        | none => department_ids.head?
      { id := emp.id
        store_id := emp.store_id
        is_keyholder := emp.is_keyholder
        is_manager := emp.is_manager
        contracted_weekly_hours := emp.contracted_weekly_hours
        department_ids := department_ids
        primary_department_id := primary_dept })

/-- `load_availability_rules`. -/
def load_availability_rules (db : DbSnapshot) (employee_ids : List Int) :
    List AvailabilityRule :=
  if employee_ids.isEmpty then []
  else (db.availability_rules.filter (fun r =>
    employee_ids.contains r.employee_id && r.active)).map (fun r =>
    { employee_id := r.employee_id
      day_of_week := r.day_of_week
      rule_type := r.rule_type
      start_time := r.start_time_local
      end_time := r.end_time_local })

/-- `load_time_off_requests`. -/
def load_time_off_requests (db : DbSnapshot) (employee_ids : List Int)
    (week_start : Int) : List TimeOffRequest :=
  if employee_ids.isEmpty then []
  else
    let week_start_dt := week_start * 1440
    let week_end_dt := (week_start + 7) * 1440
    (db.time_off_requests.filter (fun r =>
      employee_ids.contains r.employee_id &&
      r.status == TimeOffStatus.APPROVED &&
      r.start_date < week_end_dt && r.end_date > week_start_dt)).map (fun r =>
      { employee_id := r.employee_id
        start_datetime := r.start_date
        end_datetime := r.end_date })

/-- `load_coverage_requirements`. -/
def load_coverage_requirements (db : DbSnapshot) (store_id : Int) :
    List CoverageRequirement :=
  (db.coverage_requirements.filter (fun r =>
    r.store_id == store_id && r.active)).map (fun r =>
    { id := r.id, store_id := r.store_id, department_id := r.department_id
      day_of_week := r.day_of_week, start_time := r.start_time_local
      end_time := r.end_time_local, min_staff := r.min_staff
      max_staff := r.max_staff })

/-- `load_role_requirements`. -/
def load_role_requirements (db : DbSnapshot) (store_id : Int) :
    List RoleRequirement :=
  (db.role_requirements.filter (fun r =>
    r.store_id == store_id && r.active)).map (fun r =>
    { id := r.id, store_id := r.store_id, department_id := r.department_id
      day_of_week := r.day_of_week, start_time := r.start_time_local
      end_time := r.end_time_local, requires_keyholder := r.requires_keyholder
      requires_manager := r.requires_manager
      min_manager_count := r.min_manager_count })

/-- `load_existing_shifts`: non-cancelled shifts starting in the week
(timezone stripping is the identity in this naive-local embedding). -/
def load_existing_shifts (db : DbSnapshot) (store_id week_start : Int) :
    List Shift :=
  let week_start_dt := week_start * 1440
  let week_end_dt := (week_start + 7) * 1440
  (db.shifts.filter (fun s =>
    s.store_id == store_id && s.status != ShiftStatus.CANCELLED &&
    s.start_datetime_utc ≥ week_start_dt &&
    s.start_datetime_utc < week_end_dt)).map (fun s =>
    { employee_id := s.employee_id, store_id := s.store_id
      department_id := s.department_id
      start_datetime := s.start_datetime_utc
      end_datetime := s.end_datetime_utc })

/-- The `ValueError` message of `load_schedule_context` for a non-Monday
week start (the Python message interpolates the formatted date; the
embedding interpolates the day number). -/
def mondayErrorMessage (week_start : Int) : String :=
  "week_start must be a Monday, got day " ++ toString week_start

/-- `load_schedule_context`: validates that `week_start` is a Monday
*before* loading anything, then loads all context data. -/
def load_schedule_context (db : DbSnapshot) (store_id week_start : Int) :
    Except String ScheduleContext :=
  if week_start % 7 != 0 then
    Except.error (mondayErrorMessage week_start)
  else
    let employees := load_employees db store_id
    let employee_ids := employees.map Employee.id
    Except.ok
      { store_id := store_id
        week_start := week_start
        employees := employees
        availability_rules := load_availability_rules db employee_ids
        time_off_requests := load_time_off_requests db employee_ids week_start
        coverage_requirements := load_coverage_requirements db store_id
        role_requirements := load_role_requirements db store_id
        existing_shifts := load_existing_shifts db store_id week_start }

/-- `generate_schedule` (`generator.py`): load the context (which may
fail with the Monday `ValueError`), then run the greedy solver. -/
def generate_schedule (db : DbSnapshot) (store_id week_start : Int) :
    Except String ScheduleResult :=
  match load_schedule_context db store_id week_start with
  | Except.error e => Except.error e
  | Except.ok context => Except.ok (solve_schedule context)

/-! ## Claims about the availability predicate (C7, C8, C10) -/

def c7CexRuleUnavailable : AvailabilityRule :=
  { employee_id := 1, day_of_week := 0, rule_type := AvailabilityType.UNAVAILABLE
    start_time := none, end_time := none }

def c7CexRuleAvailable : AvailabilityRule :=
  { employee_id := 1, day_of_week := 0, rule_type := AvailabilityType.AVAILABLE
    start_time := none, end_time := none }

def c7CexRulePreferred : AvailabilityRule :=
  { employee_id := 1, day_of_week := 0, rule_type := AvailabilityType.PREFERRED
    start_time := some 600, end_time := some 720 }

def c7CexRules : List AvailabilityRule :=
  [c7CexRuleUnavailable, c7CexRuleAvailable, c7CexRulePreferred]

/-- C7, counterexample: an all-day `AVAILABLE` rule covers the 10:00-11:00
slot and a timed `PREFERRED` rule overlaps it, yet `classify` returns
`UNAVAILABLE`, not `PREFERRED`: an `UNAVAILABLE` rule takes precedence,
which the claim's unconditional statement ignores. -/
theorem claim_C7_counterexample :
    ((employeeRulesFor c7CexRules 1 0).any (fun r =>
      r.rule_type == AvailabilityType.AVAILABLE && ruleCoversSlot 600 660 r) = true) ∧
    ((employeeRulesFor c7CexRules 1 0).any (prefTimedOverlaps 600 660) = true) ∧
    get_availability_for_slot 1 0 600 660 c7CexRules =
      some AvailabilityType.UNAVAILABLE := by
  decide

/-- C7, amended: *provided no `UNAVAILABLE` rule of the employee for the
day matches the slot*, if some `AVAILABLE` rule covers the slot then
`classify` returns `PREFERRED` when some `PREFERRED` rule *with both
times set* overlaps the slot, and `AVAILABLE` otherwise (an all-day
`PREFERRED` rule does not trigger the upgrade). -/
theorem claim_C7_amended (employee_id day_of_week slot_start slot_end : Int)
    (rules : List AvailabilityRule)
    (hU : ∀ r ∈ employeeRulesFor rules employee_id day_of_week,
      ¬(r.rule_type = AvailabilityType.UNAVAILABLE ∧
        ruleOverlapsSlot slot_start slot_end r = true))
    (hA : ∃ r ∈ employeeRulesFor rules employee_id day_of_week,
      r.rule_type = AvailabilityType.AVAILABLE ∧
      ruleCoversSlot slot_start slot_end r = true) :
    get_availability_for_slot employee_id day_of_week slot_start slot_end rules =
      (if (employeeRulesFor rules employee_id day_of_week).any
          (prefTimedOverlaps slot_start slot_end) then
        some AvailabilityType.PREFERRED
      else some AvailabilityType.AVAILABLE) := by
  obtain ⟨r0, hr0mem, hr0av, hr0cov⟩ := hA
  have hne : (employeeRulesFor rules employee_id day_of_week).isEmpty = false := by
    rcases h : employeeRulesFor rules employee_id day_of_week with _ | ⟨a, l⟩
    · rw [h] at hr0mem; cases hr0mem
    · rfl
  have hUany : (employeeRulesFor rules employee_id day_of_week).any (fun r =>
      r.rule_type == AvailabilityType.UNAVAILABLE &&
      ruleOverlapsSlot slot_start slot_end r) = false := by
    rw [List.any_eq_false]
    intro r hr
    have := hU r hr
    simp only [Bool.and_eq_true, beq_iff_eq] at *
    tauto
  have hAany : (employeeRulesFor rules employee_id day_of_week).any (fun r =>
      r.rule_type == AvailabilityType.AVAILABLE &&
      ruleCoversSlot slot_start slot_end r) = true := by
    rw [List.any_eq_true]
    exact ⟨r0, hr0mem, by simp [hr0av, hr0cov]⟩
  unfold get_availability_for_slot
  simp only [hne, hUany, hAany, Bool.false_eq_true, if_false, if_true]

/-- A `PREFERRED` rule whose window starts at midnight: `time(0, 0)` is
truthy (Python ≥ 3.5), so the rule counts as timed and does trigger the
upgrade. -/
def c7MidnightPreferred : AvailabilityRule :=
  { employee_id := 1, day_of_week := 0, rule_type := AvailabilityType.PREFERRED
    start_time := some 0, end_time := some 660 }

/-- C7, witness for the amended theorem: with an all-day `AVAILABLE` rule,
no `UNAVAILABLE` rule, and an overlapping `PREFERRED` rule with both
times set, `classify` returns `PREFERRED` — also when the `PREFERRED`
window starts at midnight (`time(0, 0)` is truthy). -/
theorem claim_C7_witness :
    (get_availability_for_slot 1 0 600 660 [c7CexRuleAvailable, c7CexRulePreferred] =
      some AvailabilityType.PREFERRED) ∧
    (get_availability_for_slot 1 0 600 630 [c7CexRuleAvailable, c7MidnightPreferred] =
      some AvailabilityType.PREFERRED) := by
  constructor
  · have h := claim_C7_amended 1 0 600 660 [c7CexRuleAvailable, c7CexRulePreferred]
      (by decide) (by decide)
    simpa using h
  · have h := claim_C7_amended 1 0 600 630 [c7CexRuleAvailable, c7MidnightPreferred]
      (by decide) (by decide)
    simpa using h

/-- The time-off clause of `can_work`, as a proposition (half-open
overlap of the candidate window with an approved time-off of the
employee). -/
def TimeOffBlocks (employee : Employee) (shift_start shift_end : Int)
    (time_off_requests : List TimeOffRequest) : Prop :=
  ∃ req ∈ time_off_requests, req.employee_id = employee.id ∧
    shift_start < req.end_datetime ∧ req.start_datetime < shift_end

/-- The existing-shift clause of `can_work`, as a proposition. -/
def ShiftConflicts (employee : Employee) (shift_start shift_end : Int)
    (existing_shifts : List Shift) : Prop :=
  ∃ ex ∈ existing_shifts, ex.employee_id = employee.id ∧
    shift_start < ex.end_datetime ∧ ex.start_datetime < shift_end

/-- The availability clause of `can_work`: the slot classifies as
`UNAVAILABLE` on the start day's weekday using bare clock times. -/
def ClassifiedUnavailable (employee : Employee) (shift_start shift_end : Int)
    (rules : List AvailabilityRule) : Prop :=
  get_availability_for_slot employee.id ((Int.fdiv shift_start 1440) % 7)
    (shift_start % 1440) (shift_end % 1440) rules = some AvailabilityType.UNAVAILABLE

/-- C8: `can_work` returns false exactly when one of the four conditions
holds — department mismatch, overlapping approved time off, `UNAVAILABLE`
classification, overlap with an existing shift (all overlaps half-open) —
and reports the first of them in this order; otherwise it returns
`(true, "OK")`. -/
theorem claim_C8_can_work (employee : Employee)
    (shift_start shift_end department_id : Int)
    (rules : List AvailabilityRule) (time_off_requests : List TimeOffRequest)
    (existing_shifts : List Shift) :
    ((can_employee_work_shift employee shift_start shift_end department_id
        rules time_off_requests existing_shifts).1 = false ↔
      (department_id ∉ employee.department_ids ∨
       TimeOffBlocks employee shift_start shift_end time_off_requests ∨
       ClassifiedUnavailable employee shift_start shift_end rules ∨
       ShiftConflicts employee shift_start shift_end existing_shifts)) ∧
    (department_id ∉ employee.department_ids →
      can_employee_work_shift employee shift_start shift_end department_id
        rules time_off_requests existing_shifts =
        (false, "Employee not assigned to department " ++ toString department_id)) ∧
    (department_id ∈ employee.department_ids →
     TimeOffBlocks employee shift_start shift_end time_off_requests →
      can_employee_work_shift employee shift_start shift_end department_id
        rules time_off_requests existing_shifts =
        (false, "Employee has approved time off")) ∧
    (department_id ∈ employee.department_ids →
     ¬TimeOffBlocks employee shift_start shift_end time_off_requests →
     ClassifiedUnavailable employee shift_start shift_end rules →
      can_employee_work_shift employee shift_start shift_end department_id
        rules time_off_requests existing_shifts =
        (false, "Employee unavailable during this time")) ∧
    (department_id ∈ employee.department_ids →
     ¬TimeOffBlocks employee shift_start shift_end time_off_requests →
     ¬ClassifiedUnavailable employee shift_start shift_end rules →
     ShiftConflicts employee shift_start shift_end existing_shifts →
      can_employee_work_shift employee shift_start shift_end department_id
        rules time_off_requests existing_shifts =
        (false, "Conflicts with existing shift")) ∧
    (department_id ∈ employee.department_ids →
     ¬TimeOffBlocks employee shift_start shift_end time_off_requests →
     ¬ClassifiedUnavailable employee shift_start shift_end rules →
     ¬ShiftConflicts employee shift_start shift_end existing_shifts →
      can_employee_work_shift employee shift_start shift_end department_id
        rules time_off_requests existing_shifts = (true, "OK")) := by
  have hb1 : (employee.department_ids.contains department_id = true) ↔
      department_id ∈ employee.department_ids := by simp
  have hb2 : (is_employee_on_time_off employee.id shift_start shift_end
      time_off_requests = true) ↔
      TimeOffBlocks employee shift_start shift_end time_off_requests := by
    simp [is_employee_on_time_off, datetime_ranges_overlap, TimeOffBlocks,
      List.any_eq_true, and_assoc]
  have hb4 : (existing_shifts.any (fun ex =>
      ex.employee_id == employee.id &&
      datetime_ranges_overlap shift_start shift_end ex.start_datetime
        ex.end_datetime) = true) ↔
      ShiftConflicts employee shift_start shift_end existing_shifts := by
    simp [datetime_ranges_overlap, ShiftConflicts, List.any_eq_true, and_assoc]
  unfold can_employee_work_shift
  rcases h1 : employee.department_ids.contains department_id with _ | _ <;>
    rcases h2 : is_employee_on_time_off employee.id shift_start shift_end
      time_off_requests with _ | _ <;>
    by_cases h3 : ClassifiedUnavailable employee shift_start shift_end rules <;>
    rcases h4 : existing_shifts.any (fun ex =>
      ex.employee_id == employee.id &&
      datetime_ranges_overlap shift_start shift_end ex.start_datetime
        ex.end_datetime) with _ | _ <;>
    simp_all [ClassifiedUnavailable]

def c8Employee : Employee :=
  { id := 2, store_id := 1, is_keyholder := false, is_manager := false
    contracted_weekly_hours := 20, department_ids := [5]
    primary_department_id := some 5 }

def c8TimeOff : TimeOffRequest :=
  { employee_id := 2, start_datetime := 600, end_datetime := 700 }

/-- C8, witness: for an employee of department 5 with approved time off
10:00-11:40 on the epoch Monday, a 09:00-17:00 candidate is rejected with
the time-off reason. -/
theorem claim_C8_witness :
    can_employee_work_shift c8Employee 540 1020 5 [] [c8TimeOff] [] =
      (false, "Employee has approved time off") :=
  (claim_C8_can_work c8Employee 540 1020 5 [] [c8TimeOff] []).2.2.1
    (by decide) (by unfold TimeOffBlocks; decide)

def c10Employee : Employee :=
  { id := 7, store_id := 1, is_keyholder := false, is_manager := false
    contracted_weekly_hours := 20, department_ids := [3]
    primary_department_id := some 3 }

/-- A timed `UNAVAILABLE` rule, Monday 20:00-23:00. -/
def c10Rule : AvailabilityRule :=
  { employee_id := 7, day_of_week := 0
    rule_type := AvailabilityType.UNAVAILABLE
    start_time := some 1200, end_time := some 1380 }

/-- C10: an overnight candidate window Monday 18:00 to Tuesday 02:00
(whose end clock-time, 02:00, is earlier than its start clock-time)
genuinely overlaps the employee's Monday-evening `UNAVAILABLE` window
20:00-23:00 as datetime ranges, yet `can_employee_work_shift` returns
true: availability is checked only against the start day's weekday with
bare clock-time comparisons, so the wrapped window never registers as
overlapping the rule. -/
theorem claim_C10_overnight_bypasses_unavailable :
    can_employee_work_shift c10Employee 1080 1560 3 [c10Rule] [] [] =
      (true, "OK") ∧
    c10Rule.rule_type = AvailabilityType.UNAVAILABLE ∧
    c10Rule.timed = true ∧
    (1560 % 1440 : Int) ≤ (1080 % 1440 : Int) ∧
    datetime_ranges_overlap 1080 1560 (0 * 1440 + c10Rule.start_time.getD 0)
      (0 * 1440 + c10Rule.end_time.getD 0) = true := by
  decide

/-! ## Claim C1: success iff no unmet constraint -/

/-- C1, counterexample: when the CP-SAT backend status is neither
`OPTIMAL` nor `FEASIBLE` the result has `success = false` while all three
unmet collections are empty, so the claimed biconditional fails on that
branch. -/
theorem claim_C1_counterexample :
    ¬(((orNoSolutionResult "INFEASIBLE").success = true) ↔
      ((orNoSolutionResult "INFEASIBLE").unmet_coverage = [] ∧
       (orNoSolutionResult "INFEASIBLE").unmet_role_requirements = [] ∧
       (orNoSolutionResult "INFEASIBLE").unmet_contracted_hours = [])) := by
  decide

/-- C1, amended: `success ⇔ all three unmet collections empty` holds for
every greedy result and for every result the CP-SAT path builds on an
`OPTIMAL`/`FEASIBLE` status; on any other backend status the result
instead has `success = false` with all three unmet collections empty. -/
theorem claim_C1_amended :
    (∀ context : ScheduleContext,
      ((solve_schedule context).success = true ↔
        ((solve_schedule context).unmet_coverage = [] ∧
         (solve_schedule context).unmet_role_requirements = [] ∧
         (solve_schedule context).unmet_contracted_hours = []))) ∧
    (∀ (context : ScheduleContext) (shifts : List Shift) (fno : Bool),
      ((orBuildResult context shifts fno).success = true ↔
        ((orBuildResult context shifts fno).unmet_coverage = [] ∧
         (orBuildResult context shifts fno).unmet_role_requirements = [] ∧
         (orBuildResult context shifts fno).unmet_contracted_hours = []))) ∧
    (∀ status_name : String,
      (orNoSolutionResult status_name).success = false ∧
      (orNoSolutionResult status_name).unmet_coverage = [] ∧
      (orNoSolutionResult status_name).unmet_role_requirements = [] ∧
      (orNoSolutionResult status_name).unmet_contracted_hours = []) := by
  refine ⟨fun context => ?_, fun context shifts fno => ?_, fun status_name => ?_⟩
  · unfold solve_schedule buildResult validate_schedule
    simp only [Bool.and_eq_true, List.isEmpty_iff, List.map_eq_nil_iff]
    tauto
  · unfold orBuildResult
    simp only [Bool.and_eq_true, List.isEmpty_iff]
    tauto
  · unfold orNoSolutionResult
    simp

/-! ## Claim C2: Monday validation in the orchestrator -/

/-- C2: for every database snapshot and store, a `week_start` that is not
a Monday makes `generate_schedule` fail with the `ValueError` before any
solving; no `ScheduleResult` is produced. -/
theorem claim_C2_nonmonday_propagates (db : DbSnapshot)
    (store_id week_start : Int) (h : week_start % 7 ≠ 0) :
    generate_schedule db store_id week_start =
      Except.error (mondayErrorMessage week_start) := by
  have hb : (week_start % 7 != 0) = true := by simpa using h
  unfold generate_schedule load_schedule_context
  simp [hb]

def emptyDb : DbSnapshot :=
  { employees := [], employee_departments := [], availability_rules := []
    time_off_requests := [], coverage_requirements := []
    role_requirements := [], shifts := [] }

/-- C2, witness: a Tuesday `week_start` is rejected. -/
theorem claim_C2_witness :
    generate_schedule emptyDb 1 1 = Except.error (mondayErrorMessage 1) :=
  claim_C2_nonmonday_propagates emptyDb 1 1 (by decide)

/-! ## Claim C4: the 12-hour rest invariant is violated by the
contracted-hour fill phase -/

/-- A manager contracted for 10 hours, assigned to department 1, only
available Monday evening from 18:00. -/
def c4Employee : Employee :=
  { id := 1, store_id := 1, is_keyholder := false, is_manager := true
    contracted_weekly_hours := 10, department_ids := [1]
    primary_department_id := some 1 }

def c4Rule : AvailabilityRule :=
  { employee_id := 1, day_of_week := 0
    rule_type := AvailabilityType.AVAILABLE
    start_time := some 1080, end_time := some 1439 }

/-- An existing shift Tuesday 10:00-18:00. -/
def c4ExistingShift : Shift :=
  { employee_id := 1, store_id := 1, department_id := 1
    start_datetime := 2040, end_datetime := 2520 }

def c4Context : ScheduleContext :=
  { store_id := 1, week_start := 0, employees := [c4Employee]
    availability_rules := [c4Rule], time_off_requests := []
    coverage_requirements := [], role_requirements := []
    existing_shifts := [c4ExistingShift] }

/-- The overnight fill shift the greedy solver produces on this context:
Monday 18:00 to Tuesday 04:00. -/
def c4OvernightShift : Shift :=
  { employee_id := 1, store_id := 1, department_id := 1
    start_datetime := 1080, end_datetime := 1680 }

/-- C4, the code bug evaluated: on `c4Context` the greedy contracted-hour
fill emits the overnight shift Monday 18:00-Tuesday 04:00 even though the
employee's existing Tuesday shift starts at 10:00, leaving a 6-hour gap —
the produced pair of same-employee shifts on consecutive days violates
`MIN_REST_HOURS = 12` (gap 360 minutes < 720). -/
theorem claim_C4_rest_violated :
    (solve_schedule c4Context).shifts = [c4OvernightShift] ∧
    c4OvernightShift.employee_id = c4ExistingShift.employee_id ∧
    Int.fdiv c4ExistingShift.start_datetime 1440 =
      Int.fdiv c4OvernightShift.start_datetime 1440 + 1 ∧
    c4ExistingShift.start_datetime - c4OvernightShift.end_datetime = 360 ∧
    c4ExistingShift.start_datetime - c4OvernightShift.end_datetime <
      MIN_REST_MINUTES := by
  refine ⟨?_, by decide, by decide, by decide, by decide⟩
  with_unfolding_all rfl

/-! ## Claim C6: empty requirements, zero contracted hours -/

theorem mem_intRange {a b x : Int} : x ∈ intRange a b ↔ a ≤ x ∧ x < b := by
  unfold intRange
  constructor
  · intro hx
    obtain ⟨k, hk, rfl⟩ := List.mem_map.mp hx
    have hk2 := List.mem_range.mp hk
    omega
  · rintro ⟨h1, h2⟩
    exact List.mem_map.mpr
      ⟨(x - a).toNat, List.mem_range.mpr (by omega), by omega⟩

theorem addTracking_context (st : SolverState) (s : Shift) :
    (st.addTracking s).context = st.context := rfl

theorem addTracking_shifts (st : SolverState) (s : Shift) :
    (st.addTracking s).shifts = st.shifts := rfl

theorem foldl_addTracking_context (l : List Shift) (st : SolverState) :
    (l.foldl SolverState.addTracking st).context = st.context := by
  induction l generalizing st with
  | nil => rfl
  | cons s t ih => simpa using ih (st.addTracking s)

theorem foldl_addTracking_shifts (l : List Shift) (st : SolverState) :
    (l.foldl SolverState.addTracking st).shifts = st.shifts := by
  induction l generalizing st with
  | nil => rfl
  | cons s t ih => simpa using ih (st.addTracking s)

theorem initSolverState_context (context : ScheduleContext) :
    (initSolverState context).context = context :=
  foldl_addTracking_context context.existing_shifts _

theorem initSolverState_shifts (context : ScheduleContext) :
    (initSolverState context).shifts = context.existing_shifts :=
  foldl_addTracking_shifts context.existing_shifts _

theorem duration_hours_nonneg (s : Shift)
    (h : s.start_datetime ≤ s.end_datetime) : 0 ≤ s.duration_hours := by
  unfold Shift.duration_hours
  have h2 : (0 : ℚ) ≤ ((s.end_datetime - s.start_datetime : Int) : ℚ) := by
    exact_mod_cast sub_nonneg.mpr h
  exact div_nonneg h2 (by norm_num)

theorem foldl_addTracking_hours_nonneg (l : List Shift) (st : SolverState)
    (hl : ∀ s ∈ l, 0 ≤ s.duration_hours) (hst : ∀ i, 0 ≤ st.hours i) :
    ∀ i, 0 ≤ (l.foldl SolverState.addTracking st).hours i := by
  induction l generalizing st with
  | nil => exact hst
  | cons s t ih =>
    refine fun i => ?_
    have hstep : ∀ j, 0 ≤ (st.addTracking s).hours j := by
      intro j
      unfold SolverState.addTracking
      by_cases hj : j = s.employee_id
      · simpa [hj] using add_nonneg (hst s.employee_id)
          (hl s (List.mem_cons_self s t))
      · simpa [hj] using hst j
    exact ih (st.addTracking s)
      (fun x hx => hl x (List.mem_cons_of_mem _ hx)) hstep i

theorem initSolverState_hours_nonneg (context : ScheduleContext)
    (h : ∀ s ∈ context.existing_shifts, s.start_datetime ≤ s.end_datetime) :
    ∀ i, 0 ≤ (initSolverState context).hours i :=
  foldl_addTracking_hours_nonneg context.existing_shifts _
    (fun s hs => duration_hours_nonneg s (h s hs)) (fun _ => le_refl 0)

theorem calculate_employee_hours_nonneg (shifts : List Shift) (employee_id : Int)
    (h : ∀ s ∈ shifts, s.start_datetime ≤ s.end_datetime) :
    0 ≤ calculate_employee_hours shifts employee_id := by
  unfold calculate_employee_hours
  refine List.sum_nonneg ?_
  intro x hx
  obtain ⟨s, hs, rfl⟩ := List.mem_map.mp hx
  exact duration_hours_nonneg s (h s (List.mem_filter.mp hs).1)

theorem orShiftKeys_mem {context : ScheduleContext} {k : OrKey}
    (hk : k ∈ orShiftKeys context) :
    ∃ emp ∈ context.employees, k.emp_id = emp.id ∧
      MIN_SHIFT_HOURS * SLOTS_PER_HOUR ≤ k.length ∧
      0 ≤ k.day ∧ k.day < 7 ∧
      (orExistingDays emp.id context.existing_shifts).contains k.day = false ∧
      0 ≤ k.start_slot ∧ k.start_slot + k.length ≤ SLOTS_PER_DAY ∧
      k.dept_id ∈ emp.department_ids := by
  unfold orShiftKeys at hk
  obtain ⟨emp, hemp, hk⟩ := List.mem_flatMap.mp hk
  obtain ⟨day, hday, hk⟩ := List.mem_flatMap.mp hk
  refine ⟨emp, hemp, ?_⟩
  rcases hexb : (orExistingDays emp.id context.existing_shifts).contains day
    with _ | _
  case true =>
    rw [hexb, if_pos rfl] at hk
    cases hk
  case false =>
    rw [hexb] at hk
    rw [if_neg (by simp)] at hk
    obtain ⟨start_slot, hstart, hk⟩ := List.mem_flatMap.mp hk
    obtain ⟨length, hlen, hk⟩ := List.mem_flatMap.mp hk
    split at hk
    · cases hk
    · split at hk
      · cases hk
      · obtain ⟨dept, hdept, rfl⟩ := List.mem_map.mp hk
        have hd := mem_intRange.mp hday
        have hs := mem_intRange.mp hstart
        have hl := (mem_intRange.mp (by
          simpa [get_valid_shift_lengths] using hlen)).1
        refine ⟨rfl, hl, hd.1, hd.2, hexb, hs.1, ?_, hdept⟩
        show start_slot + length ≤ SLOTS_PER_DAY
        omega

theorem orExtractShifts_mem {context : ScheduleContext} {sol : OrKey → Bool}
    {s : Shift} (hs : s ∈ orExtractShifts context sol) :
    ∃ k ∈ orShiftKeys context, sol k = true ∧ s = orKeyShift context k := by
  unfold orExtractShifts at hs
  obtain ⟨k, hk, rfl⟩ := List.mem_map.mp hs
  have hmem := List.mem_filter.mp hk
  exact ⟨k, hmem.1, hmem.2, rfl⟩

theorem orExtractShifts_duration {context : ScheduleContext} {sol : OrKey → Bool}
    {s : Shift} (hs : s ∈ orExtractShifts context sol) :
    s.start_datetime ≤ s.end_datetime := by
  obtain ⟨k, hk, _, rfl⟩ := orExtractShifts_mem hs
  obtain ⟨emp, _, _, hlen, _⟩ := orShiftKeys_mem hk
  have hl0 : (0 : Int) ≤ k.length := by
    have h4 : (0 : Int) < MIN_SHIFT_HOURS * SLOTS_PER_HOUR := by decide
    omega
  simp only [orKeyShift, slot_to_time, SLOT_DURATION_MINUTES, DAY_START_HOUR]
  omega

theorem fillPass_of_no_need (n : Nat) (st : SolverState)
    (h : needingHours st = []) : fillPass n st = st := by
  cases n with
  | zero => rfl
  | succ m => simp [fillPass, h]

/-- C6, amended: with no coverage requirements, no role requirements and
all contracted hours zero (and well-formed existing shifts), the greedy
solver returns `success = true` with an *empty* shift list, and every
shift set the CP-SAT path extracts also yields `success = true` — but the
CP-SAT shift list need not be empty (see the counterexample). -/
theorem claim_C6_amended :
    (∀ context : ScheduleContext,
      context.coverage_requirements = [] →
      context.role_requirements = [] →
      (∀ e ∈ context.employees, e.contracted_weekly_hours = 0) →
      (∀ s ∈ context.existing_shifts, s.start_datetime ≤ s.end_datetime) →
      (solve_schedule context).success = true ∧
      (solve_schedule context).shifts = []) ∧
    (∀ context : ScheduleContext,
      context.coverage_requirements = [] →
      context.role_requirements = [] →
      (∀ e ∈ context.employees, e.contracted_weekly_hours = 0) →
      (∀ s ∈ context.existing_shifts, s.start_datetime ≤ s.end_datetime) →
      ∀ (sol : OrKey → Bool) (fno : Bool),
        (orBuildResult context (orExtractShifts context sol) fno).success = true) := by
  constructor
  · intro context hcov hrole hemp hex
    have hctx : (initSolverState context).context = context :=
      initSolverState_context context
    have hsh : (initSolverState context).shifts = context.existing_shifts :=
      initSolverState_shifts context
    have hnn : ∀ i, 0 ≤ (initSolverState context).hours i :=
      initSolverState_hours_nonneg context hex
    have hsort : sortRequirementsByConstraint (initSolverState context) = [] := by
      unfold sortRequirementsByConstraint
      rw [hctx, hcov]
      rfl
    have h1 : coverRequirements (initSolverState context) = initSolverState context := by
      unfold coverRequirements
      rw [hsort]
      rfl
    have h2 : satisfyRoleRequirements (initSolverState context) =
        initSolverState context := by
      unfold satisfyRoleRequirements
      rw [hctx, hrole]
      rfl
    have hneed : needingHours (initSolverState context) = [] := by
      unfold needingHours
      rw [hctx]
      have hfil : context.employees.filter (fun emp =>
          (initSolverState context).hours emp.id <
            (emp.contracted_weekly_hours : ℚ)) = [] := by
        rw [List.filter_eq_nil_iff]
        intro e he
        rw [hemp e he]
        simpa using not_lt.mpr (hnn e.id)
      rw [hfil]
      rfl
    have h3 : fillContractedHours (initSolverState context) =
        initSolverState context := by
      unfold fillContractedHours
      exact fillPass_of_no_need 3 _ hneed
    have h4 : retryCoverageGaps (initSolverState context) =
        initSolverState context := by
      unfold retryCoverageGaps
      rw [hsort]
      rfl
    have hchain : solve_schedule context = buildResult (initSolverState context) := by
      unfold solve_schedule
      rw [h1, h2, h3, h4]
    have hvalid : validate_schedule context context.existing_shifts =
        { valid := true, coverage_gaps := [], role_gaps := [],
          hour_shortfalls := [] } := by
      unfold validate_schedule
      rw [hcov, hrole]
      have hhs : check_contracted_hours context.existing_shifts
          context.employees = [] := by
        unfold check_contracted_hours
        rw [List.filterMap_eq_nil_iff]
        intro e he
        rw [hemp e he]
        have := calculate_employee_hours_nonneg context.existing_shifts e.id hex
        simp only [Int.cast_zero, zero_sub, neg_pos]
        rw [if_neg (by simpa using not_lt.mpr this)]
      rw [hhs]
      rfl
    rw [hchain]
    unfold buildResult
    rw [hctx, hsh, hvalid]
    refine ⟨rfl, ?_⟩
    simp only []
    rw [List.filter_eq_nil_iff]
    intro s hs
    have : (s.employee_id, s.start_datetime, s.end_datetime) ∈
        context.existing_shifts.map (fun t =>
          (t.employee_id, t.start_datetime, t.end_datetime)) :=
      List.mem_map_of_mem _ hs
    simp [this]
  · intro context hcov hrole hemp hex sol fno
    have hc : orCheckUnmetCoverage (orExtractShifts context sol) context = [] := by
      unfold orCheckUnmetCoverage
      rw [hcov]
      rfl
    have hr : orCheckUnmetRoles (orExtractShifts context sol) context = [] := by
      unfold orCheckUnmetRoles
      rw [hrole]
      rfl
    have hh : orCheckUnmetHours (orExtractShifts context sol) context = [] := by
      unfold orCheckUnmetHours
      rw [List.filterMap_eq_nil_iff]
      intro e he
      rw [hemp e he]
      have hnew : 0 ≤ (((orExtractShifts context sol).filter
          (fun s => s.employee_id == e.id)).map Shift.duration_hours).sum := by
        refine List.sum_nonneg ?_
        intro x hx
        obtain ⟨s, hs, rfl⟩ := List.mem_map.mp hx
        exact duration_hours_nonneg s
          (orExtractShifts_duration (List.mem_filter.mp hs).1)
      have hexist : 0 ≤ orExistingHours e.id context.existing_shifts := by
        unfold orExistingHours
        refine List.sum_nonneg ?_
        intro x hx
        obtain ⟨s, hs, rfl⟩ := List.mem_map.mp hx
        exact duration_hours_nonneg s (hex s (List.mem_filter.mp hs).1)
      simp only [Int.cast_zero, zero_sub]
      rw [if_neg]
      intro hcontra
      have : (0 : ℚ) ≤ _ + _ := add_nonneg hnew hexist
      nlinarith
    unfold orBuildResult
    rw [hc, hr, hh]
    rfl

def c6Employee : Employee :=
  { id := 1, store_id := 1, is_keyholder := false, is_manager := false
    contracted_weekly_hours := 0, department_ids := [1]
    primary_department_id := some 1 }

/-- One always-available employee with zero contracted hours, no
requirements, no existing shifts. -/
def c6Context : ScheduleContext :=
  { store_id := 1, week_start := 0, employees := [c6Employee]
    availability_rules := [], time_off_requests := []
    coverage_requirements := [], role_requirements := []
    existing_shifts := [] }

/-- The Monday 06:00-14:00 primary-department shift: objective value
`+25 (primary) + 10 (8h) - 24 (overtime) = +11 > 0`. -/
def c6Key : OrKey :=
  { emp_id := 1, day := 0, start_slot := 0, length := 8, dept_id := 1 }

def c6Sol : OrKey → Bool := fun k => k == c6Key

theorem c6Sol_mem_unique :
    ∀ l : List OrKey, (l.filter (fun k => c6Sol k)).length = l.count c6Key := by
  intro l
  simp only [List.count, List.countP_eq_length_filter]
  rfl

set_option maxRecDepth 1000000 in
theorem c6Sol_feasible : OrFeasible c6Context c6Sol := by
  constructor
  · intro e he day
    have h1 := c6Sol_mem_unique ((orShiftKeys c6Context).filter
      (fun k => k.emp_id == e.id && k.day == day))
    rw [h1]
    have h2 : ((orShiftKeys c6Context).filter
        (fun k => k.emp_id == e.id && k.day == day)).count c6Key ≤
        (orShiftKeys c6Context).count c6Key :=
      (List.filter_sublist _).count_le c6Key
    have h3 : (orShiftKeys c6Context).count c6Key = 1 := by decide
    omega
  · intro e he day hday k1 hk1 k2 hk2 hrest ⟨hs1, hs2⟩
    have e1 : k1 = c6Key := by simpa [c6Sol] using hs1
    have e2 : k2 = c6Key := by simpa [c6Sol] using hs2
    have d1 : (k1.day == day) = true := by
      have := (List.mem_filter.mp hk1).2
      simp only [Bool.and_eq_true] at this
      exact this.2
    have d2 : (k2.day == day + 1) = true := by
      have := (List.mem_filter.mp hk2).2
      simp only [Bool.and_eq_true] at this
      exact this.2
    rw [e1] at d1
    rw [e2] at d2
    simp only [beq_iff_eq] at d1 d2
    omega
  · intro e he day hday ex hex k2 hk2 hrest
    rw [show c6Context.existing_shifts = [] from rfl] at hex
    cases (List.mem_filter.mp hex).1
  · intro e he day hday ex hex k1 hk1 hrest
    rw [show c6Context.existing_shifts = [] from rfl] at hex
    cases (List.mem_filter.mp hex).1

set_option maxRecDepth 100000 in
theorem c6Sol_objective : orObjective c6Context c6Sol = 11 := by
  with_unfolding_all rfl

theorem c6_total_new_zero (sol : OrKey → Bool)
    (h : ∀ k ∈ orShiftKeys c6Context, sol k = false) :
    orTotalNewSlots c6Context c6Employee.id sol = 0 := by
  unfold orTotalNewSlots
  apply List.sum_eq_zero
  intro x hx
  obtain ⟨k, hk, rfl⟩ := List.mem_map.mp hx
  rw [h k (List.mem_filter.mp hk).1]
  simp [boolInd]

set_option maxRecDepth 1000000 in
theorem c6_allfalse_objective (sol : OrKey → Bool)
    (h : ∀ k ∈ orShiftKeys c6Context, sol k = false) :
    orObjective c6Context sol = 0 := by
  have hdept : orDeptTerms c6Context sol = 0 := by
    unfold orDeptTerms
    apply List.sum_eq_zero
    intro x hx
    obtain ⟨k, hk, rfl⟩ := List.mem_map.mp hx
    rw [h k hk]
    cases empMapGet c6Context.employees k.emp_id <;> simp [boolInd]
  have hpref : orPrefTerms c6Context sol = 0 := by
    unfold orPrefTerms
    apply List.sum_eq_zero
    intro x hx
    obtain ⟨k, hk, rfl⟩ := List.mem_map.mp hx
    rw [h k hk]
    cases empMapGet c6Context.employees k.emp_id
    · rfl
    · split <;> simp [boolInd]
  have hlen : orLenTerms c6Context sol = 0 := by
    unfold orLenTerms
    apply List.sum_eq_zero
    intro x hx
    obtain ⟨k, hk, rfl⟩ := List.mem_map.mp hx
    rw [h k hk]
    simp [boolInd]
  have hhours : orHoursObjectiveTerms c6Context sol = 0 := by
    unfold orHoursObjectiveTerms
    rw [show c6Context.employees = [c6Employee] from rfl]
    simp only [List.map_cons, List.map_nil, List.sum_cons, List.sum_nil]
    rw [c6_total_new_zero sol h]
    with_unfolding_all rfl
  have hcov : orCoverageObjectiveTerms c6Context sol = 0 := rfl
  have hrole : orRoleObjectiveTerms c6Context sol = 0 := rfl
  unfold orObjective
  rw [hdept, hpref, hlen, hhours, hcov, hrole]
  norm_num

/-- C6, counterexample: on `c6Context` (one always-available
primary-department employee with zero contracted hours and no
requirements) every hard-constraint-feasible, objective-maximal CP-SAT
assignment — i.e. whatever the backend returns as `OPTIMAL` — extracts a
*nonempty* shift list: choosing the single 8-hour primary-department
shift scores `+11` while the empty schedule scores `0`, so the claim's
"empty shifts" conclusion is false for the CP-SAT solver. -/
theorem claim_C6_counterexample :
    (OrFeasible c6Context c6Sol ∧ orObjective c6Context c6Sol = 11 ∧
      orExtractShifts c6Context c6Sol ≠ []) ∧
    ∀ sol : OrKey → Bool, OrOptimal c6Context sol →
      orExtractShifts c6Context sol ≠ [] := by
  refine ⟨⟨c6Sol_feasible, c6Sol_objective, by decide⟩, ?_⟩
  rintro sol ⟨hfeas, hopt⟩ hempty
  have hallfalse : ∀ k ∈ orShiftKeys c6Context, sol k = false := by
    intro k hk
    unfold orExtractShifts at hempty
    have hfil := List.map_eq_nil_iff.mp hempty
    by_contra hcontra
    have hsol : sol k = true := by
      cases hs : sol k
      · exact absurd hs hcontra
      · rfl
    have : k ∈ (orShiftKeys c6Context).filter (fun k => sol k) :=
      List.mem_filter.mpr ⟨hk, hsol⟩
    rw [hfil] at this
    cases this
  have h0 : orObjective c6Context sol = 0 := c6_allfalse_objective sol hallfalse
  have h11 := hopt c6Sol c6Sol_feasible
  rw [h0, c6Sol_objective] at h11
  exact absurd h11 (by norm_num)

def c6WitnessContext : ScheduleContext :=
  { store_id := 4, week_start := 0, employees := []
    availability_rules := [], time_off_requests := []
    coverage_requirements := [], role_requirements := []
    existing_shifts := [] }

/-- C6, witness for the amended theorem: on a context with no employees
at all, the greedy result is `success = true` with no shifts, and any
CP-SAT extraction also reports `success = true`. -/
theorem claim_C6_witness :
    (solve_schedule c6WitnessContext).success = true ∧
    (solve_schedule c6WitnessContext).shifts = [] ∧
    (orBuildResult c6WitnessContext
      (orExtractShifts c6WitnessContext (fun _ => false)) false).success = true := by
  refine ⟨(claim_C6_amended.1 c6WitnessContext rfl rfl ?_ ?_).1,
    (claim_C6_amended.1 c6WitnessContext rfl rfl ?_ ?_).2,
    claim_C6_amended.2 c6WitnessContext rfl rfl ?_ ?_ (fun _ => false) false⟩ <;>
    intro x hx <;> cases hx

/-! ## Claim C5: at most one new shift per employee per day -/

theorem mem_insertLe {α : Type} (le : α → α → Bool) (x : α) (l : List α)
    (y : α) : y ∈ insertLe le x l ↔ y = x ∨ y ∈ l := by
  induction l with
  | nil => simp [insertLe]
  | cons a t ih =>
    unfold insertLe
    split
    · simp only [List.mem_cons, ih]
      tauto
    · simp [List.mem_cons]

theorem mem_stableSort {α : Type} (le : α → α → Bool) (l : List α) (y : α) :
    y ∈ stableSort le l ↔ y ∈ l := by
  suffices h : ∀ acc : List α,
      y ∈ l.foldl (fun acc x => insertLe le x acc) acc ↔ y ∈ acc ∨ y ∈ l by
    have := h []
    simpa [stableSort] using this
  induction l with
  | nil => simp
  | cons a t ih =>
    intro acc
    simp only [List.foldl_cons]
    rw [ih, mem_insertLe]
    simp only [List.mem_cons]
    tauto

theorem mem_daysInsert (l : List Int) (x d : Int) :
    d ∈ daysInsert l x ↔ d ∈ l ∨ d = x := by
  unfold daysInsert
  split
  · rename_i h
    constructor
    · exact fun hd => Or.inl hd
    · rintro (hd | rfl)
      · exact hd
      · simpa using h
  · simp

theorem addTracking_days_mem (st : SolverState) (s : Shift) (i d : Int) :
    d ∈ (st.addTracking s).days i ↔
      d ∈ st.days i ∨ (i = s.employee_id ∧ d = s.dayOfWeek) := by
  unfold SolverState.addTracking
  by_cases h : i = s.employee_id
  · subst h
    simp [mem_daysInsert]
  · simp [if_neg h, h]

theorem addShift_days_mem (st : SolverState) (s : Shift) (i d : Int) :
    d ∈ (st.addShift s).days i ↔
      d ∈ st.days i ∨ (i = s.employee_id ∧ d = s.dayOfWeek) :=
  addTracking_days_mem { st with shifts := st.shifts ++ [s] } s i d

theorem addShift_shifts (st : SolverState) (s : Shift) :
    (st.addShift s).shifts = st.shifts ++ [s] := rfl

theorem addShift_context (st : SolverState) (s : Shift) :
    (st.addShift s).context = st.context := rfl

/-- The `employee_days` dictionary is an accurate index of the working
shift list. -/
def DaysAccurate (st : SolverState) : Prop :=
  ∀ i d, d ∈ st.days i ↔
    ∃ s ∈ st.shifts, s.employee_id = i ∧ s.dayOfWeek = d

theorem foldl_addTracking_days_mem (l : List Shift) (st : SolverState)
    (i d : Int) :
    d ∈ (l.foldl SolverState.addTracking st).days i ↔
      d ∈ st.days i ∨ ∃ s ∈ l, s.employee_id = i ∧ s.dayOfWeek = d := by
  induction l generalizing st with
  | nil => simp
  | cons a t ih =>
    simp only [List.foldl_cons]
    rw [ih, addTracking_days_mem]
    simp only [List.mem_cons]
    constructor
    · rintro ((hd | ⟨rfl, rfl⟩) | ⟨s, hs, h1, h2⟩)
      · exact Or.inl hd
      · exact Or.inr ⟨a, Or.inl rfl, rfl, rfl⟩
      · exact Or.inr ⟨s, Or.inr hs, h1, h2⟩
    · rintro (hd | ⟨s, hs | hs, h1, h2⟩)
      · exact Or.inl (Or.inl hd)
      · subst hs
        exact Or.inl (Or.inr ⟨h1.symm, h2.symm⟩)
      · exact Or.inr ⟨s, hs, h1, h2⟩

theorem initSolverState_daysAccurate (context : ScheduleContext) :
    DaysAccurate (initSolverState context) := by
  intro i d
  unfold initSolverState
  rw [foldl_addTracking_days_mem, foldl_addTracking_shifts]
  simp

/-- The per-employee day discipline of the newly added shifts: no two on
the same weekday, and none on a weekday with an existing shift. -/
def NewShiftsOk (context : ScheduleContext) (added : List Shift) : Prop :=
  (∀ e : Int,
    ((added.filter (fun s => s.employee_id == e)).map Shift.dayOfWeek).Nodup) ∧
  (∀ a ∈ added, ∀ ex ∈ context.existing_shifts,
    ex.employee_id = a.employee_id → ex.dayOfWeek ≠ a.dayOfWeek)

/-- The invariant carried through every phase of the greedy solver. -/
def SolverInv (context : ScheduleContext) (st : SolverState) : Prop :=
  st.context = context ∧
  DaysAccurate st ∧
  ∃ added, st.shifts = context.existing_shifts ++ added ∧
    NewShiftsOk context added

theorem fdiv_1440_eq {x t : Int} (h1 : t * 1440 ≤ x)
    (h2 : x < (t + 1) * 1440) : Int.fdiv x 1440 = t := by
  rw [Int.fdiv_eq_ediv _ (by norm_num)]
  omega

theorem SolverInv_addShift {context : ScheduleContext} {st : SolverState}
    (s : Shift) (hinv : SolverInv context st)
    (hday : s.dayOfWeek ∉ st.days s.employee_id) :
    SolverInv context (st.addShift s) := by
  obtain ⟨hctx, hacc, added, hsh, hok⟩ := hinv
  have hnotin : ∀ a, a ∈ st.shifts → a.employee_id = s.employee_id →
      a.dayOfWeek ≠ s.dayOfWeek := by
    intro a ha h1 h2
    exact hday ((hacc s.employee_id s.dayOfWeek).mpr ⟨a, ha, h1, h2⟩)
  refine ⟨hctx, ?_, added ++ [s], ?_, ?_, ?_⟩
  · intro i d
    rw [addShift_days_mem, hacc i d, addShift_shifts]
    simp only [List.mem_append, List.mem_singleton]
    constructor
    · rintro (⟨t, ht, h1, h2⟩ | ⟨rfl, rfl⟩)
      · exact ⟨t, Or.inl ht, h1, h2⟩
      · exact ⟨s, Or.inr rfl, rfl, rfl⟩
    · rintro ⟨t, ht | rfl, h1, h2⟩
      · exact Or.inl ⟨t, ht, h1, h2⟩
      · exact Or.inr ⟨h1.symm, h2.symm⟩
  · rw [addShift_shifts, hsh, List.append_assoc]
  · intro e
    rw [List.filter_append, List.map_append]
    rcases he : (s.employee_id == e : Bool) with _ | _
    · have hfil : [s].filter (fun t => t.employee_id == e) = [] := by
        simp [List.filter, he]
      rw [hfil]
      simpa using hok.1 e
    · have hfil : [s].filter (fun t => t.employee_id == e) = [s] := by
        simp [List.filter, he]
      rw [hfil]
      rw [List.nodup_append]
      refine ⟨hok.1 e, by simp, ?_⟩
      intro d hd
      simp only [List.map_cons, List.map_nil, List.mem_singleton]
      intro hcontra
      obtain ⟨a, ha, rfl⟩ := List.mem_map.mp hd
      have hamem := List.mem_filter.mp ha
      have hae : a.employee_id = e := by simpa using hamem.2
      have hse : s.employee_id = e := by simpa using he
      refine hnotin a ?_ (by omega) hcontra
      rw [hsh]
      exact List.mem_append.mpr (Or.inr hamem.1)
  · intro a ha ex hex heq
    rcases List.mem_append.mp ha with ha2 | ha2
    · exact hok.2 a ha2 ex hex heq
    · have : a = s := by simpa using ha2
      subst this
      intro hcontra
      refine hnotin ex ?_ heq hcontra
      rw [hsh]
      exact List.mem_append.mpr (Or.inl hex)

theorem mem_sampleTimesLe30 {start stop x : Int}
    (h : x ∈ sampleTimesLe start stop 30) : start ≤ x ∧ x ≤ stop := by
  unfold sampleTimesLe at h
  obtain ⟨k, hk, rfl⟩ := List.mem_map.mp h
  have hk2 := List.mem_range.mp hk
  rw [Int.fdiv_eq_ediv _ (by norm_num)] at hk2
  omega

theorem mem_sampleTimes30 {start stop x : Int}
    (h : x ∈ sampleTimes start stop 30) : start ≤ x ∧ x < stop := by
  unfold sampleTimes at h
  obtain ⟨k, hk, rfl⟩ := List.mem_map.mp h
  have hk2 := List.mem_range.mp hk
  rw [Int.fdiv_eq_ediv _ (by norm_num)] at hk2
  omega

theorem foldl_pick_mem (f : Int → Bool) (g : Int → Int) (l : List Int) :
    ∀ (acc : Int × Option Int) (b : Int),
      (l.foldl (fun acc cur =>
        if f cur then
          (if g cur > acc.1 then (g cur, some cur) else acc)
        else acc) acc).2 = some b →
      acc.2 = some b ∨ b ∈ l := by
  induction l with
  | nil => exact fun acc b h => Or.inl h
  | cons x t ih =>
    intro acc b h
    simp only [List.foldl_cons] at h
    rcases ih _ b h with h2 | h2
    · by_cases hf : f x
      · rw [if_pos hf] at h2
        by_cases hg : g x > acc.1
        · rw [if_pos hg] at h2
          simp only at h2
          exact Or.inr (by simp [← Option.some_inj.mp h2])
        · rw [if_neg hg] at h2
          exact Or.inl h2
      · rw [if_neg hf] at h2
        exact Or.inl h2
    · exact Or.inr (List.mem_cons_of_mem _ h2)

theorem findValidShiftTime_some {st : SolverState} {employee : Employee}
    {department_id target_date length_hours window_start window_end must_cover : Int}
    {s : Shift} (hlen : 0 < length_hours)
    (h : findValidShiftTime st employee department_id target_date length_hours
      window_start window_end must_cover = some s) :
    s.employee_id = employee.id ∧
    Int.fdiv s.start_datetime 1440 = target_date := by
  unfold findValidShiftTime at h
  dsimp only [] at h
  split at h
  · cases h
  · rename_i hle
    set best := (sampleTimesLe
      (max (must_cover - length_hours * 60 + 30) (target_date * 1440 + 360))
      (min must_cover (target_date * 1440 + 1320 - length_hours * 60)) 30).foldl
      (fun acc current_start =>
        if (can_employee_work_shift employee current_start
            (current_start + length_hours * 60) department_id
            st.context.availability_rules st.context.time_off_requests
            st.shifts).1 then
          (if min (current_start + length_hours * 60) window_end -
              max current_start window_start > acc.1 then
            (min (current_start + length_hours * 60) window_end -
              max current_start window_start, some current_start)
          else acc)
        else acc) (0, none) with hbest
    rcases hb : best.2 with _ | bs
    · rw [hb] at h
      cases h
    · rw [hb] at h
      have hs := Option.some_inj.mp h
      have hmem := foldl_pick_mem
        (fun cur => (can_employee_work_shift employee cur
          (cur + length_hours * 60) department_id
          st.context.availability_rules st.context.time_off_requests
          st.shifts).1)
        (fun cur => min (cur + length_hours * 60) window_end -
          max cur window_start)
        _ (0, none) bs (by rw [← hbest, hb])
      rcases hmem with h2 | h2
      · cases h2
      · have hbounds := mem_sampleTimesLe30 h2
        subst hs
        refine ⟨rfl, ?_⟩
        show Int.fdiv bs 1440 = target_date
        apply fdiv_1440_eq
        · have := hbounds.1
          omega
        · have h3 := hbounds.2
          have h4 : bs ≤ target_date * 1440 + 1320 - length_hours * 60 := by
            omega
          omega

theorem shiftLengths_pos {b : Bool} {length : Int}
    (h : length ∈ (if b then MANAGER_SHIFT_LENGTHS
      else NON_MANAGER_SHIFT_LENGTHS)) : 0 < length := by
  rcases b with _ | _ <;>
    simp [MANAGER_SHIFT_LENGTHS, NON_MANAGER_SHIFT_LENGTHS] at h <;>
    rcases h with h | h | h | h <;> omega

theorem findBestShiftForTime_some {st : SolverState}
    {target_time department_id window_start window_end : Int} {s : Shift}
    (h : findBestShiftForTime st target_time department_id window_start
      window_end = some s) :
    s.dayOfWeek ∉ st.days s.employee_id := by
  unfold findBestShiftForTime at h
  dsimp only [] at h
  split at h
  · cases h
  · rename_i best rest heq
    have hbmem := List.mem_cons_self best rest
    rw [← heq, mem_stableSort] at hbmem
    obtain ⟨emp, hemp, hbmem⟩ := List.mem_flatMap.mp hbmem
    split at hbmem
    · cases hbmem
    · split at hbmem
      · cases hbmem
      · rename_i hdays hrest
        obtain ⟨length, hlenmem, hfm⟩ := List.mem_filterMap.mp hbmem
        rw [Option.map_eq_some'] at hfm
        obtain ⟨shift, hfv, hpair⟩ := hfm
        have hfacts := findValidShiftTime_some (shiftLengths_pos hlenmem) hfv
        have hs : s = shift := by
          have h1 := Option.some_inj.mp h
          rw [← h1, ← hpair]
        subst hs
        have hdow : s.dayOfWeek = (Int.fdiv target_time 1440) % 7 := by
          unfold Shift.dayOfWeek
          rw [hfacts.2]
        rw [hdow, hfacts.1]
        intro hcontra
        apply hdays
        simpa using hcontra

theorem findRoleShift_some {st : SolverState} {req : RoleRequirement}
    {target_time window_start window_end day_of_week : Int} {s : Shift}
    (h : findRoleShift st req target_time window_start window_end
      day_of_week = some s) :
    ((st.days s.employee_id).contains day_of_week = false) ∧
    Int.fdiv s.start_datetime 1440 = Int.fdiv target_time 1440 := by
  unfold findRoleShift at h
  dsimp only [] at h
  split at h
  · cases h
  · rename_i best rest heq
    have hbmem := List.mem_cons_self best rest
    rw [← heq, mem_stableSort] at hbmem
    obtain ⟨emp, hemp, hbmem⟩ := List.mem_flatMap.mp hbmem
    split at hbmem
    · cases hbmem
    · rename_i hdays
      split at hbmem
      · cases hbmem
      · split at hbmem
        · cases hbmem
        · split at hbmem
          · cases hbmem
          · obtain ⟨length, hlenmem, hfm⟩ := List.mem_filterMap.mp hbmem
            rw [Option.map_eq_some'] at hfm
            obtain ⟨shift, hfv, hpair⟩ := hfm
            have hfacts := findValidShiftTime_some
              (shiftLengths_pos hlenmem) hfv
            have hs : s = shift := by
              have h1 := Option.some_inj.mp h
              rw [← h1, ← hpair]
            subst hs
            rw [hfacts.1]
            refine ⟨by simpa using hdays, hfacts.2⟩

theorem findOpenShift_some {st : SolverState} {employee : Employee}
    {target_date length_hours : Int} {s : Shift}
    (h : findOpenShift st employee target_date length_hours = some s) :
    s.employee_id = employee.id ∧
    Int.fdiv s.start_datetime 1440 = target_date := by
  unfold findOpenShift at h
  dsimp only [] at h
  obtain ⟨dept, hdept, h2⟩ := List.exists_of_findSome?_eq_some h
  obtain ⟨hour, hhour, h3⟩ := List.exists_of_findSome?_eq_some h2
  have hhb := mem_intRange.mp hhour
  split at h3
  · have hs := Option.some_inj.mp h3
    subst hs
    refine ⟨rfl, ?_⟩
    show Int.fdiv (target_date * 1440 + hour * 60) 1440 = target_date
    apply fdiv_1440_eq <;> omega
  · cases h3

theorem foldl_inv {α β : Type} (P : α → Prop) (f : α → β → α) (l : List β)
    (hf : ∀ a, ∀ b ∈ l, P a → P (f a b)) :
    ∀ a, P a → P (l.foldl f a) := by
  induction l with
  | nil => exact fun a h => h
  | cons x t ih =>
    intro a h
    exact ih (fun a b hb => hf a b (List.mem_cons_of_mem _ hb)) (f a x)
      (hf a x (List.mem_cons_self _ _) h)

theorem addNeeded_inv {context : ScheduleContext}
    (target_time department_id window_start window_end : Int) :
    ∀ (n : Nat) (st : SolverState), SolverInv context st →
      SolverInv context
        (addNeeded target_time department_id window_start window_end n st) := by
  intro n
  induction n with
  | zero => exact fun st h => h
  | succ m ih =>
    intro st h
    unfold addNeeded
    dsimp only []
    rcases hf : findBestShiftForTime st target_time department_id
        window_start window_end with _ | s
    · exact ih st h
    · exact ih _ (SolverInv_addShift s h (findBestShiftForTime_some hf))

theorem coverSingleRequirement_inv {context : ScheduleContext}
    {st : SolverState} (req : CoverageRequirement)
    (h : SolverInv context st) :
    SolverInv context (coverSingleRequirement st req) := by
  unfold coverSingleRequirement
  dsimp only []
  refine foldl_inv _ _ _ ?_ st h
  intro st2 current _ hinv2
  dsimp only []
  split
  · exact addNeeded_inv _ _ _ _ _ st2 hinv2
  · exact hinv2

theorem coverRequirements_inv {context : ScheduleContext} {st : SolverState}
    (h : SolverInv context st) :
    SolverInv context (coverRequirements st) := by
  unfold coverRequirements
  dsimp only []
  exact foldl_inv _ _ _ (fun a b _ hb => coverSingleRequirement_inv b hb) _
    (foldl_inv _ _ _ (fun a b _ hb => coverSingleRequirement_inv b hb) st h)

theorem retryCoverageGaps_inv {context : ScheduleContext} {st : SolverState}
    (h : SolverInv context st) :
    SolverInv context (retryCoverageGaps st) := by
  unfold retryCoverageGaps
  exact foldl_inv _ _ _ (fun a b _ hb => coverSingleRequirement_inv b hb) st h

theorem satisfySingleRoleRequirement_inv {context : ScheduleContext}
    {st : SolverState} (req : RoleRequirement)
    (hmon : context.week_start % 7 = 0)
    (hwf : 0 ≤ req.start_time ∧ req.end_time ≤ 1440)
    (hdw : ∀ d, req.day_of_week = some d → 0 ≤ d ∧ d < 7)
    (h : SolverInv context st) :
    SolverInv context (satisfySingleRoleRequirement st req) := by
  unfold satisfySingleRoleRequirement
  refine foldl_inv _ _ _ ?_ st h
  intro st2 day hday hinv2
  dsimp only []
  refine foldl_inv _ _ _ ?_ st2 hinv2
  intro st3 current hcur hinv3
  dsimp only []
  split
  · rcases hf : findRoleShift st3 req current
        ((st2.context.week_start + day) * 1440 + req.start_time)
        ((st2.context.week_start + day) * 1440 + req.end_time) day
      with _ | s
    · exact hinv3
    · refine SolverInv_addShift s hinv3 ?_
      obtain ⟨hcontains, hstart⟩ := findRoleShift_some hf
      have hdb : 0 ≤ day ∧ day < 7 := by
        unfold roleDays at hday
        rcases hreq : req.day_of_week with _ | d2
        · rw [hreq] at hday
          exact mem_intRange.mp hday
        · rw [hreq] at hday
          have : day = d2 := by simpa using hday
          subst this
          exact hdw day hreq
      have hcb := mem_sampleTimes30 hcur
      rw [hinv2.1] at hcb
      have hfd : Int.fdiv current 1440 = context.week_start + day := by
        apply fdiv_1440_eq <;> [omega; omega]
      have hdow : s.dayOfWeek = day := by
        unfold Shift.dayOfWeek
        rw [hstart, hfd]
        omega
      rw [hdow]
      intro hmemd
      have hc2 : (st3.days s.employee_id).contains day = true := by
        simpa using hmemd
      rw [hc2] at hcontains
      cases hcontains
  · exact hinv3

theorem satisfyRoleRequirements_inv {context : ScheduleContext}
    {st : SolverState}
    (hmon : context.week_start % 7 = 0)
    (hrolewf : ∀ r ∈ context.role_requirements,
      (0 ≤ r.start_time ∧ r.end_time ≤ 1440) ∧
      ∀ d, r.day_of_week = some d → 0 ≤ d ∧ d < 7)
    (h : SolverInv context st) :
    SolverInv context (satisfyRoleRequirements st) := by
  unfold satisfyRoleRequirements
  have hlist : st.context.role_requirements = context.role_requirements := by
    rw [h.1]
  rw [hlist]
  refine foldl_inv _ _ _ ?_ st h
  intro st2 req hreq hinv2
  exact satisfySingleRoleRequirement_inv req hmon (hrolewf req hreq).1
    (hrolewf req hreq).2 hinv2

theorem fillEmployeeHours_inv {context : ScheduleContext} {st : SolverState}
    (employee : Employee) (needed : ℚ)
    (hmon : context.week_start % 7 = 0)
    (h : SolverInv context st) :
    SolverInv context (fillEmployeeHours st employee needed) := by
  unfold fillEmployeeHours
  dsimp only []
  refine foldl_inv (fun acc : SolverState × ℚ => SolverInv context acc.1)
    _ _ ?_ (st, needed) h
  intro acc day hday hinv
  dsimp only []
  split
  · exact hinv
  · split
    · exact hinv
    · split
      · exact hinv
      · rename_i hneed hcontains hrest
        rcases hfind : (stableSort (fun a b => decide (b ≤ a))
            (if employee.is_manager = true then MANAGER_SHIFT_LENGTHS
             else NON_MANAGER_SHIFT_LENGTHS)).findSome?
            (fun length => findOpenShift acc.1 employee
              (acc.1.context.week_start + day) length) with _ | shift
        · exact hinv
        · refine SolverInv_addShift shift hinv ?_
          obtain ⟨length, hlmem, hfo⟩ :=
            List.exists_of_findSome?_eq_some hfind
          obtain ⟨hemp, hstart⟩ := findOpenShift_some hfo
          have hdb := mem_intRange.mp hday
          have hdow : shift.dayOfWeek = day := by
            unfold Shift.dayOfWeek
            rw [hstart, hinv.1]
            omega
          rw [hdow, hemp]
          intro hmemd
          have hc2 : ((acc.1.days employee.id).contains day) = true := by
            simpa using hmemd
          exact hcontains hc2

theorem fillPass_inv {context : ScheduleContext}
    (hmon : context.week_start % 7 = 0) :
    ∀ (n : Nat) (st : SolverState), SolverInv context st →
      SolverInv context (fillPass n st) := by
  intro n
  induction n with
  | zero => exact fun st h => h
  | succ m ih =>
    intro st h
    unfold fillPass
    dsimp only []
    split
    · exact h
    · refine ih _ (foldl_inv _ _ _ ?_ st h)
      intro st2 p _ hinv2
      exact fillEmployeeHours_inv p.1 p.2 hmon hinv2

theorem initSolverState_inv (context : ScheduleContext) :
    SolverInv context (initSolverState context) := by
  refine ⟨initSolverState_context context,
    initSolverState_daysAccurate context, [], ?_, ?_, ?_⟩
  · rw [initSolverState_shifts]
    simp
  · intro e
    simp
  · intro a ha
    cases ha

theorem solve_schedule_inv (context : ScheduleContext)
    (hmon : context.week_start % 7 = 0)
    (hrolewf : ∀ r ∈ context.role_requirements,
      (0 ≤ r.start_time ∧ r.end_time ≤ 1440) ∧
      ∀ d, r.day_of_week = some d → 0 ≤ d ∧ d < 7) :
    SolverInv context (retryCoverageGaps (fillContractedHours
      (satisfyRoleRequirements (coverRequirements
        (initSolverState context))))) := by
  refine retryCoverageGaps_inv ?_
  refine fillPass_inv hmon 3 _ ?_
  refine satisfyRoleRequirements_inv hmon hrolewf ?_
  exact coverRequirements_inv (initSolverState_inv context)

theorem newShiftsOk_count (context : ScheduleContext) (added : List Shift)
    (hok : NewShiftsOk context added) (e d : Int) :
    (added.filter (fun s => s.employee_id == e && s.dayOfWeek == d)).length ≤ 1 := by
  have h1 : added.filter (fun s => s.employee_id == e && s.dayOfWeek == d) =
      (added.filter (fun s => s.employee_id == e)).filter
        (fun s => s.dayOfWeek == d) := by
    rw [List.filter_filter]
    exact List.filter_congr (fun a _ => Bool.and_comm _ _)
  rw [h1]
  rw [← List.countP_eq_length_filter]
  have h2 : (added.filter (fun s => s.employee_id == e)).countP
      (fun s => s.dayOfWeek == d) =
      ((added.filter (fun s => s.employee_id == e)).map Shift.dayOfWeek).count d := by
    rw [List.count, List.countP_map]
    rfl
  rw [h2]
  exact List.nodup_iff_count_le_one.mp (hok.1 e) d

theorem solve_schedule_shifts_sub (context : ScheduleContext)
    (hmon : context.week_start % 7 = 0)
    (hrolewf : ∀ r ∈ context.role_requirements,
      (0 ≤ r.start_time ∧ r.end_time ≤ 1440) ∧
      ∀ d, r.day_of_week = some d → 0 ≤ d ∧ d < 7) :
    ∃ added, NewShiftsOk context added ∧
      (solve_schedule context).shifts.Sublist added := by
  obtain ⟨hctx, hacc, added, hsh, hok⟩ := solve_schedule_inv context hmon hrolewf
  refine ⟨added, hok, ?_⟩
  unfold solve_schedule buildResult
  dsimp only []
  rw [hctx, hsh, List.filter_append]
  have hex0 : context.existing_shifts.filter (fun s =>
      !((context.existing_shifts.map (fun t =>
        (t.employee_id, t.start_datetime, t.end_datetime))).contains
        (s.employee_id, s.start_datetime, s.end_datetime))) = [] := by
    rw [List.filter_eq_nil_iff]
    intro s hs
    have hmem : (s.employee_id, s.start_datetime, s.end_datetime) ∈
        context.existing_shifts.map (fun t =>
          (t.employee_id, t.start_datetime, t.end_datetime)) :=
      List.mem_map_of_mem _ hs
    simp [hmem]
  rw [hex0, List.nil_append]
  exact List.filter_sublist added

theorem slots_per_day_val : SLOTS_PER_DAY = 16 := by decide

theorem min_slots_val : MIN_SHIFT_HOURS * SLOTS_PER_HOUR = 4 := by decide

theorem orKeyShift_facts {context : ScheduleContext}
    (hmon : context.week_start % 7 = 0) {k : OrKey}
    (hk : k ∈ orShiftKeys context) :
    (orKeyShift context k).employee_id = k.emp_id ∧
    (orKeyShift context k).dayOfWeek = k.day := by
  obtain ⟨emp, hemp, hid, hlen, hday0, hday7, hexd, hss, hsl, hdept⟩ :=
    orShiftKeys_mem hk
  have h16 := slots_per_day_val
  have h4 := min_slots_val
  refine ⟨rfl, ?_⟩
  unfold orKeyShift Shift.dayOfWeek
  dsimp only []
  have hfd : Int.fdiv ((context.week_start + k.day) * 1440 +
      slot_to_time k.start_slot) 1440 = context.week_start + k.day := by
    apply fdiv_1440_eq
    · simp only [slot_to_time, SLOT_DURATION_MINUTES, DAY_START_HOUR]
      omega
    · simp only [slot_to_time, SLOT_DURATION_MINUTES, DAY_START_HOUR]
      omega
  rw [hfd]
  omega

theorem orExtract_facts {context : ScheduleContext} {sol : OrKey → Bool}
    (hmon : context.week_start % 7 = 0) {s : Shift}
    (hs : s ∈ orExtractShifts context sol) :
    ∃ k ∈ orShiftKeys context, sol k = true ∧ s.employee_id = k.emp_id ∧
      s.dayOfWeek = k.day ∧
      ∃ emp ∈ context.employees, k.emp_id = emp.id ∧
        (orExistingDays emp.id context.existing_shifts).contains k.day = false := by
  obtain ⟨k, hk, hsol, rfl⟩ := orExtractShifts_mem hs
  obtain ⟨emp, hemp, hid, hlen, hday0, hday7, hexd, hss, hsl, hdept⟩ :=
    orShiftKeys_mem hk
  have hf := orKeyShift_facts hmon hk
  exact ⟨k, hk, hsol, hf.1, hf.2, emp, hemp, hid, hexd⟩



theorem orExtract_atMostOne {context : ScheduleContext} {sol : OrKey → Bool}
    (hmon : context.week_start % 7 = 0)
    (hfeas : OrFeasible context sol) (e d : Int) :
    ((orExtractShifts context sol).filter (fun s =>
      s.employee_id == e && s.dayOfWeek == d)).length ≤ 1 := by
  have hpred : ∀ k ∈ (orShiftKeys context).filter (fun k => sol k),
      (((fun s : Shift => s.employee_id == e && s.dayOfWeek == d)) ∘
        orKeyShift context) k = true →
      (k.emp_id == e && k.day == d) = true := by
    intro k hkmem hq
    have hkkeys : k ∈ orShiftKeys context := (List.mem_filter.mp hkmem).1
    have hf := orKeyShift_facts hmon hkkeys
    simp only [Function.comp, Bool.and_eq_true, beq_iff_eq] at hq ⊢
    constructor
    · rw [← hf.1]
      exact hq.1
    · rw [← hf.2]
      exact hq.2
  by_cases hemp : ∃ emp ∈ context.employees, emp.id = e
  · obtain ⟨emp, hmem, rfl⟩ := hemp
    rw [← List.countP_eq_length_filter]
    unfold orExtractShifts
    rw [List.countP_map]
    calc List.countP ((fun s : Shift =>
            s.employee_id == emp.id && s.dayOfWeek == d) ∘ orKeyShift context)
          ((orShiftKeys context).filter (fun k => sol k))
        ≤ List.countP (fun k => k.emp_id == emp.id && k.day == d)
            ((orShiftKeys context).filter (fun k => sol k)) :=
          List.countP_mono_left hpred
      _ ≤ 1 := by
          rw [List.countP_eq_length_filter, List.filter_filter]
          have e2 : (orShiftKeys context).filter
              (fun a => (a.emp_id == emp.id && a.day == d) && sol a) =
              ((orShiftKeys context).filter (fun k =>
                k.emp_id == emp.id && k.day == d)).filter (fun k => sol k) := by
            rw [List.filter_filter]
            exact List.filter_congr (fun a _ => Bool.and_comm _ _)
          rw [e2]
          exact hfeas.at_most_one emp hmem d
  · rw [← List.countP_eq_length_filter]
    unfold orExtractShifts
    rw [List.countP_map]
    have hzero : ∀ k ∈ (orShiftKeys context).filter (fun k => sol k),
        ¬((((fun s : Shift => s.employee_id == e && s.dayOfWeek == d)) ∘
          orKeyShift context) k = true) := by
      intro k hkmem hq
      have hkkeys : k ∈ orShiftKeys context := (List.mem_filter.mp hkmem).1
      obtain ⟨emp2, hm, hid, _⟩ := orShiftKeys_mem hkkeys
      have hk2 := hpred k hkmem hq
      simp only [Bool.and_eq_true, beq_iff_eq] at hk2
      exact hemp ⟨emp2, hm, by omega⟩
    rw [List.countP_eq_zero.mpr hzero]
    omega

theorem orExtract_noExistingDay {context : ScheduleContext}
    {sol : OrKey → Bool} (hmon : context.week_start % 7 = 0) :
    ∀ s ∈ orExtractShifts context sol, ∀ ex ∈ context.existing_shifts,
      ex.employee_id = s.employee_id → ex.dayOfWeek ≠ s.dayOfWeek := by
  intro s hs ex hex heq hcontra
  obtain ⟨k, hk, _, h1, h2, emp, hemp, hid, hexd⟩ := orExtract_facts hmon hs
  have hmemd : ex.dayOfWeek ∈ orExistingDays emp.id context.existing_shifts := by
    unfold orExistingDays
    refine List.mem_map_of_mem _ ?_
    refine List.mem_filter.mpr ⟨hex, ?_⟩
    simp [heq, h1, hid]
  rw [hcontra, h2] at hmemd
  have : (orExistingDays emp.id context.existing_shifts).contains k.day
      = true := by simpa using hmemd
  rw [this] at hexd
  cases hexd

/-- C5: with a Monday `week_start`, well-formed role-requirement windows
and distinct employee ids, both solvers produce at most one new shift per
employee per weekday, and never a new shift on a weekday on which the
employee already has an existing shift. (The `hids` hypothesis reflects
the CP-SAT model's `shift_vars` dictionary being keyed by employee id.) -/
theorem claim_C5_one_shift_per_day (context : ScheduleContext)
    (hmon : context.week_start % 7 = 0)
    (hrolewf : ∀ r ∈ context.role_requirements,
      (0 ≤ r.start_time ∧ r.end_time ≤ 1440) ∧
      ∀ d, r.day_of_week = some d → 0 ≤ d ∧ d < 7)
    (_hids : (context.employees.map Employee.id).Nodup) :
    (∀ e d : Int,
      ((solve_schedule context).shifts.filter (fun s =>
        s.employee_id == e && s.dayOfWeek == d)).length ≤ 1) ∧
    (∀ s ∈ (solve_schedule context).shifts, ∀ ex ∈ context.existing_shifts,
      ex.employee_id = s.employee_id → ex.dayOfWeek ≠ s.dayOfWeek) ∧
    (∀ sol : OrKey → Bool, OrFeasible context sol →
      (∀ e d : Int,
        ((orExtractShifts context sol).filter (fun s =>
          s.employee_id == e && s.dayOfWeek == d)).length ≤ 1) ∧
      (∀ s ∈ orExtractShifts context sol, ∀ ex ∈ context.existing_shifts,
        ex.employee_id = s.employee_id → ex.dayOfWeek ≠ s.dayOfWeek)) := by
  obtain ⟨added, hok, hsub⟩ := solve_schedule_shifts_sub context hmon hrolewf
  refine ⟨?_, ?_, ?_⟩
  · intro e d
    have h1 := (hsub.filter (fun s =>
      s.employee_id == e && s.dayOfWeek == d)).length_le
    exact le_trans h1 (newShiftsOk_count context added hok e d)
  · intro s hs ex hex heq
    exact hok.2 s (hsub.mem hs) ex hex heq
  · intro sol hfeas
    exact ⟨orExtract_atMostOne hmon hfeas,
      orExtract_noExistingDay hmon⟩

def c5WitnessEmployee : Employee :=
  { id := 3, store_id := 1, is_keyholder := true, is_manager := true
    contracted_weekly_hours := 8, department_ids := [2]
    primary_department_id := some 2 }

def c5WitnessContext : ScheduleContext :=
  { store_id := 1, week_start := 7, employees := [c5WitnessEmployee]
    availability_rules := [], time_off_requests := []
    coverage_requirements :=
      [{ id := 1, store_id := 1, department_id := 2, day_of_week := 0
         start_time := 540, end_time := 780, min_staff := 1
         max_staff := none }]
    role_requirements :=
      [{ id := 1, store_id := 1, department_id := none, day_of_week := some 0
         start_time := 540, end_time := 660, requires_keyholder := true
         requires_manager := false, min_manager_count := 0 }]
    existing_shifts := [] }

/-- C5, witness: the theorem applied to a concrete one-employee context
with a coverage and a role requirement. -/
theorem claim_C5_witness :
    ((solve_schedule c5WitnessContext).shifts.filter (fun s =>
      s.employee_id == 3 && s.dayOfWeek == 0)).length ≤ 1 :=
  (claim_C5_one_shift_per_day c5WitnessContext (by decide)
    (by
      intro r hr
      rw [show c5WitnessContext.role_requirements =
        [{ id := 1, store_id := 1, department_id := none, day_of_week := some 0
           start_time := 540, end_time := 660, requires_keyholder := true
           requires_manager := false, min_manager_count := 0 }] from rfl,
        List.mem_singleton] at hr
      subst hr
      refine ⟨by decide, ?_⟩
      intro d hd
      have hd2 : some (0 : Int) = some d := hd
      have : d = 0 := (Option.some_inj.mp hd2).symm
      omega)
    (by decide)).1 3 0
/-! ## C3: CP-SAT unmet reporting versus the validator

`_check_unmet_coverage` / `_check_unmet_roles` / `_check_unmet_hours`
(`or_solver.py`) are not calls into `validate_schedule`
(`constraints.py`): they sample at 60-minute slot boundaries instead of
every 30 minutes, ignore the role requirement's department, and use a
0.01-hour tolerance on hour shortfalls.  The reports coincide when
requirement windows and shift boundaries are hour-aligned and role
requirements are store-wide, and diverge in general: a sub-hour coverage
window is invisible to the slot sampling. -/

theorem bool_and_rot (a b c : Bool) : ((a && b) && c) = ((b && c) && a) := by
  cases a <;> cases b <;> cases c <;> rfl

theorem bool_fail_eq (a b : Bool) :
    (a || b) = !(if a then false else if b then false else true) := by
  cases a <;> cases b <;> rfl

theorem isEmpty_map_cov (f : CoverageRequirement × List Int → CoverageRequirement)
    (l : List (CoverageRequirement × List Int)) : (l.map f).isEmpty = l.isEmpty := by
  cases l <;> rfl

theorem isEmpty_map_role (f : RoleRequirement × List Int → RoleRequirement)
    (l : List (RoleRequirement × List Int)) : (l.map f).isEmpty = l.isEmpty := by
  cases l <;> rfl

theorem mem_sampleTimes30_iff {start stop x : Int} :
    x ∈ sampleTimes start stop 30 ↔ start ≤ x ∧ x < stop ∧ (30 : Int) ∣ (x - start) := by
  unfold sampleTimes
  constructor
  · intro h
    obtain ⟨k, hk, rfl⟩ := List.mem_map.mp h
    have hk2 := List.mem_range.mp hk
    rw [Int.fdiv_eq_ediv _ (by norm_num)] at hk2
    refine ⟨by omega, by omega, ⟨(k : Int), by ring⟩⟩
  · rintro ⟨h1, h2, k, hk⟩
    refine List.mem_map.mpr ⟨k.toNat, List.mem_range.mpr ?_, ?_⟩
    · rw [Int.fdiv_eq_ediv _ (by norm_num)]
      omega
    · show start + 30 * ((k.toNat : Nat) : Int) = x
      omega

/-- 30-minute sampling of a window with 60-aligned, 60-divisible-length
bounds sees a half-hour-stable failure predicate at some instant exactly
when sampling the window's hour marks does. -/
theorem sample30_equiv_hour (P : Int → Prop) (u v n : Int)
    (hu : (60 : Int) ∣ u) (hn : 60 * n = v - u)
    (hstab : ∀ t : Int, (60 : Int) ∣ t → (P (t + 30) ↔ P t)) :
    (∃ t ∈ sampleTimes u v 30, P t) ↔ ∃ j ∈ intRange 0 n, P (u + 60 * j) := by
  constructor
  · rintro ⟨t, ht, hP⟩
    obtain ⟨h1, h2, k, hk⟩ := mem_sampleTimes30_iff.mp ht
    rcases Int.even_or_odd k with ⟨j, hj⟩ | ⟨j, hj⟩
    · refine ⟨j, mem_intRange.mpr ⟨by omega, by omega⟩, ?_⟩
      have hjt : u + 60 * j = t := by omega
      rwa [hjt]
    · refine ⟨j, mem_intRange.mpr ⟨by omega, by omega⟩, ?_⟩
      have h60 : (60 : Int) ∣ u + 60 * j := dvd_add hu ⟨j, rfl⟩
      have hjt : t = (u + 60 * j) + 30 := by omega
      rw [hjt] at hP
      exact (hstab _ h60).mp hP
  · rintro ⟨j, hj, hP⟩
    obtain ⟨hj0, hjn⟩ := mem_intRange.mp hj
    exact ⟨u + 60 * j,
      mem_sampleTimes30_iff.mpr ⟨by omega, by omega, ⟨2 * j, by ring⟩⟩, hP⟩

/-- Moving a 60-aligned instant forward by half an hour does not change
which 60-aligned shifts cover it. -/
theorem get_covering_half (all : List Shift) (t : Int) (dopt : Option Int)
    (h60 : (60 : Int) ∣ t)
    (hsh : ∀ s ∈ all, (60 : Int) ∣ s.start_datetime ∧ (60 : Int) ∣ s.end_datetime) :
    get_shifts_covering_time all (t + 30) dopt = get_shifts_covering_time all t dopt := by
  unfold get_shifts_covering_time
  refine List.filter_congr ?_
  intro s hs
  have h1 : (s.start_datetime ≤ t + 30) ↔ (s.start_datetime ≤ t) := by
    have := (hsh s hs).1
    omega
  have h2 : (t + 30 < s.end_datetime) ↔ (t < s.end_datetime) := by
    have := (hsh s hs).2
    omega
  rw [decide_eq_decide.mpr h1, decide_eq_decide.mpr h2]

/-- The CP-SAT coverage count is the validator's department-filtered
covering-shift count. -/
theorem coverage_count_eq (all : List Shift) (dep t : Int) :
    (all.filter (fun s => s.department_id == dep &&
        s.start_datetime ≤ t && t < s.end_datetime)).length
      = (get_shifts_covering_time all t (some dep)).length :=
  congrArg List.length (List.filter_congr (fun _ _ => bool_and_rot _ _ _))

/-- The CP-SAT role sampling's active-shift filter is the validator's
department-free covering-shift query. -/
theorem role_filter_eq (all : List Shift) (t : Int) :
    all.filter (fun s => s.start_datetime ≤ t && t < s.end_datetime)
      = get_shifts_covering_time all t none :=
  List.filter_congr (fun _ _ => (Bool.and_true _).symm)

theorem check_coverage_at_half (all : List Shift) (req : CoverageRequirement)
    (t : Int) (h60 : (60 : Int) ∣ t)
    (hsh : ∀ s ∈ all, (60 : Int) ∣ s.start_datetime ∧ (60 : Int) ∣ s.end_datetime) :
    check_coverage_at_time all req (t + 30) = check_coverage_at_time all req t := by
  unfold check_coverage_at_time
  rw [get_covering_half all t (some req.department_id) h60 hsh]

theorem check_role_at_half (all : List Shift) (emps : List Employee)
    (req : RoleRequirement) (t : Int) (h60 : (60 : Int) ∣ t)
    (hsh : ∀ s ∈ all, (60 : Int) ∣ s.start_datetime ∧ (60 : Int) ∣ s.end_datetime) :
    check_role_requirement_at_time all emps req (t + 30)
      = check_role_requirement_at_time all emps req t := by
  unfold check_role_requirement_at_time
  rw [get_covering_half all t req.department_id h60 hsh,
      get_covering_half all t none h60 hsh]

/-- For a store-wide role requirement (department unset or 0), the
CP-SAT per-instant failure disjunction is the negation of the
validator's per-instant role check. -/
theorem role_fail_eq (all : List Shift) (emps : List Employee)
    (req : RoleRequirement) (hd : truthyId req.department_id = false) (t : Int) :
    ((req.requires_keyholder &&
        !(((all.filter (fun s => s.start_datetime ≤ t && t < s.end_datetime)).filterMap
          (fun s => empMapGet emps s.employee_id)).any (fun e => e.is_keyholder))) ||
      (req.requires_manager &&
        (((((all.filter (fun s => s.start_datetime ≤ t && t < s.end_datetime)).filterMap
          (fun s => empMapGet emps s.employee_id)).filter
            (fun e => e.is_manager)).length : Int) < req.min_manager_count)))
      = !(check_role_requirement_at_time all emps req t) := by
  unfold check_role_requirement_at_time
  rw [hd, role_filter_eq]
  exact bool_fail_eq _ _

/-- Exact hour-to-slot conversion for 60-aligned wall-clock times. -/
theorem time_to_slot_exact {a : Int} (ha : (60 : Int) ∣ a) :
    60 * time_to_slot a = a - 360 := by
  unfold time_to_slot DAY_START_HOUR SLOT_DURATION_MINUTES
  rw [Int.fdiv_eq_ediv _ (by norm_num)]
  omega

theorem filterMap_if_map_fst {α β : Type} (l : List α) (p : α → Bool) (g : α → β) :
    ((l.filterMap (fun a => if p a then some (a, g a) else none)).map Prod.fst)
      = l.filter p := by
  induction l with
  | nil => rfl
  | cons a tl ih =>
    by_cases h : p a = true
    · simp [List.filterMap_cons, h, ih]
    · simp [List.filterMap_cons, h, ih]

theorem validate_coverage_map_fst (context : ScheduleContext) (shifts : List Shift) :
    ((validate_schedule context shifts).coverage_gaps).map Prod.fst
      = context.coverage_requirements.filter
          (fun req => !(check_coverage_for_window shifts req context.week_start).1) :=
  filterMap_if_map_fst context.coverage_requirements
    (fun req => !(check_coverage_for_window shifts req context.week_start).1)
    (fun req => (check_coverage_for_window shifts req context.week_start).2)

theorem validate_role_map_fst (context : ScheduleContext) (shifts : List Shift) :
    ((validate_schedule context shifts).role_gaps).map Prod.fst
      = context.role_requirements.filter
          (fun req => !(check_role_requirement_for_window shifts context.employees req
            context.week_start).1) :=
  filterMap_if_map_fst context.role_requirements
    (fun req => !(check_role_requirement_for_window shifts context.employees req
      context.week_start).1)
    (fun req => (check_role_requirement_for_window shifts context.employees req
      context.week_start).2)

/-- `_check_unmet_coverage` agrees with the validator's coverage pass
when requirement windows and all shift boundaries are hour-aligned. -/
theorem orCheckUnmetCoverage_eq (ns : List Shift) (context : ScheduleContext)
    (hcov : ∀ req ∈ context.coverage_requirements,
      (60 : Int) ∣ req.start_time ∧ (60 : Int) ∣ req.end_time)
    (hsh : ∀ s ∈ ns ++ context.existing_shifts,
      (60 : Int) ∣ s.start_datetime ∧ (60 : Int) ∣ s.end_datetime) :
    orCheckUnmetCoverage ns context
      = ((validate_schedule context (ns ++ context.existing_shifts)).coverage_gaps).map
          Prod.fst := by
  rw [validate_coverage_map_fst]
  unfold orCheckUnmetCoverage
  refine List.filter_congr ?_
  intro req hreq
  obtain ⟨ha, hb⟩ := hcov req hreq
  set all := ns ++ context.existing_shifts with hall
  set ws := context.week_start with hws
  rw [Bool.eq_iff_iff]
  dsimp only []
  simp only [List.any_eq_true, decide_eq_true_eq, coverage_count_eq,
    check_coverage_for_window, Bool.not_eq_true', List.isEmpty_eq_false, ne_eq,
    List.eq_nil_iff_forall_not_mem, not_forall, not_not, List.mem_filter,
    check_coverage_at_time, ge_iff_le, decide_eq_false_iff_not, not_le]
  have hu : (60 : Int) ∣ (ws + req.day_of_week) * 1440 + req.start_time := by omega
  have hn : 60 * (time_to_slot req.end_time - time_to_slot req.start_time)
      = ((ws + req.day_of_week) * 1440 + req.end_time)
        - ((ws + req.day_of_week) * 1440 + req.start_time) := by
    have h1 := time_to_slot_exact ha
    have h2 := time_to_slot_exact hb
    omega
  have hstab : ∀ t : Int, (60 : Int) ∣ t →
      ((((get_shifts_covering_time all (t + 30) (some req.department_id)).length : Int)
          < req.min_staff)
        ↔ (((get_shifts_covering_time all t (some req.department_id)).length : Int)
          < req.min_staff)) := by
    intro t h60
    rw [get_covering_half all t (some req.department_id) h60 hsh]
  have hkey := sample30_equiv_hour
    (fun t => ((get_shifts_covering_time all t (some req.department_id)).length : Int)
      < req.min_staff)
    ((ws + req.day_of_week) * 1440 + req.start_time)
    ((ws + req.day_of_week) * 1440 + req.end_time)
    (time_to_slot req.end_time - time_to_slot req.start_time) hu hn hstab
  constructor
  · rintro ⟨slot, hslot, hP⟩
    obtain ⟨hA, hB⟩ := mem_intRange.mp hslot
    have heq : (ws + req.day_of_week) * 1440 + slot_to_time slot
        = ((ws + req.day_of_week) * 1440 + req.start_time)
          + 60 * (slot - time_to_slot req.start_time) := by
      have h1 := time_to_slot_exact ha
      unfold slot_to_time DAY_START_HOUR SLOT_DURATION_MINUTES
      omega
    rw [heq] at hP
    obtain ⟨t, ht, hPt⟩ := hkey.mpr
      ⟨slot - time_to_slot req.start_time, mem_intRange.mpr ⟨by omega, by omega⟩, hP⟩
    exact ⟨t, ht, hPt⟩
  · rintro ⟨t, ht, hPt⟩
    obtain ⟨j, hj, hPj⟩ := hkey.mp ⟨t, ht, hPt⟩
    obtain ⟨hj0, hjn⟩ := mem_intRange.mp hj
    refine ⟨time_to_slot req.start_time + j,
      mem_intRange.mpr ⟨by omega, by omega⟩, ?_⟩
    have heq : ((ws + req.day_of_week) * 1440 + req.start_time) + 60 * j
        = (ws + req.day_of_week) * 1440
          + slot_to_time (time_to_slot req.start_time + j) := by
      have h1 := time_to_slot_exact ha
      unfold slot_to_time DAY_START_HOUR SLOT_DURATION_MINUTES
      omega
    rw [heq] at hPj
    exact hPj

/-- `_check_unmet_roles` agrees with the validator's role pass when the
role windows and all shift boundaries are hour-aligned and every role
requirement is store-wide. -/
theorem orCheckUnmetRoles_eq (ns : List Shift) (context : ScheduleContext)
    (hrole : ∀ req ∈ context.role_requirements,
      (60 : Int) ∣ req.start_time ∧ (60 : Int) ∣ req.end_time ∧
        truthyId req.department_id = false)
    (hsh : ∀ s ∈ ns ++ context.existing_shifts,
      (60 : Int) ∣ s.start_datetime ∧ (60 : Int) ∣ s.end_datetime) :
    orCheckUnmetRoles ns context
      = ((validate_schedule context (ns ++ context.existing_shifts)).role_gaps).map
          Prod.fst := by
  rw [validate_role_map_fst]
  unfold orCheckUnmetRoles
  refine List.filter_congr ?_
  intro req hreq
  obtain ⟨ha, hb, hd⟩ := hrole req hreq
  set all := ns ++ context.existing_shifts with hall
  set ws := context.week_start with hws
  rw [Bool.eq_iff_iff]
  dsimp only []
  simp only [List.any_eq_true, role_fail_eq all context.employees req hd,
    Bool.not_eq_true', check_role_requirement_for_window, List.isEmpty_eq_false,
    ne_eq, List.eq_nil_iff_forall_not_mem, not_forall, not_not, List.mem_flatMap,
    List.mem_filter]
  constructor
  · rintro ⟨day, hday, slot, hslot, hP⟩
    obtain ⟨hA, hB⟩ := mem_intRange.mp hslot
    have hu : (60 : Int) ∣ (ws + day) * 1440 + req.start_time := by omega
    have hn : 60 * (time_to_slot req.end_time - time_to_slot req.start_time)
        = ((ws + day) * 1440 + req.end_time) - ((ws + day) * 1440 + req.start_time) := by
      have h1 := time_to_slot_exact ha
      have h2 := time_to_slot_exact hb
      omega
    have hstab : ∀ t : Int, (60 : Int) ∣ t →
        ((check_role_requirement_at_time all context.employees req (t + 30) = false)
          ↔ (check_role_requirement_at_time all context.employees req t = false)) := by
      intro t h60
      rw [check_role_at_half all context.employees req t h60 hsh]
    have heq : (ws + day) * 1440 + slot_to_time slot
        = ((ws + day) * 1440 + req.start_time)
          + 60 * (slot - time_to_slot req.start_time) := by
      have h1 := time_to_slot_exact ha
      unfold slot_to_time DAY_START_HOUR SLOT_DURATION_MINUTES
      omega
    rw [heq] at hP
    obtain ⟨t, ht, hPt⟩ := (sample30_equiv_hour
      (fun t => check_role_requirement_at_time all context.employees req t = false)
      ((ws + day) * 1440 + req.start_time) ((ws + day) * 1440 + req.end_time)
      (time_to_slot req.end_time - time_to_slot req.start_time) hu hn hstab).mpr
      ⟨slot - time_to_slot req.start_time, mem_intRange.mpr ⟨by omega, by omega⟩, hP⟩
    exact ⟨t, day, hday, ht, hPt⟩
  · rintro ⟨t, day, hday, ht, hPt⟩
    have hu : (60 : Int) ∣ (ws + day) * 1440 + req.start_time := by omega
    have hn : 60 * (time_to_slot req.end_time - time_to_slot req.start_time)
        = ((ws + day) * 1440 + req.end_time) - ((ws + day) * 1440 + req.start_time) := by
      have h1 := time_to_slot_exact ha
      have h2 := time_to_slot_exact hb
      omega
    have hstab : ∀ t : Int, (60 : Int) ∣ t →
        ((check_role_requirement_at_time all context.employees req (t + 30) = false)
          ↔ (check_role_requirement_at_time all context.employees req t = false)) := by
      intro t h60
      rw [check_role_at_half all context.employees req t h60 hsh]
    obtain ⟨j, hj, hPj⟩ := (sample30_equiv_hour
      (fun t => check_role_requirement_at_time all context.employees req t = false)
      ((ws + day) * 1440 + req.start_time) ((ws + day) * 1440 + req.end_time)
      (time_to_slot req.end_time - time_to_slot req.start_time) hu hn hstab).mp
      ⟨t, ht, hPt⟩
    obtain ⟨hj0, hjn⟩ := mem_intRange.mp hj
    refine ⟨day, hday, time_to_slot req.start_time + j,
      mem_intRange.mpr ⟨by omega, by omega⟩, ?_⟩
    have heq : ((ws + day) * 1440 + req.start_time) + 60 * j
        = (ws + day) * 1440 + slot_to_time (time_to_slot req.start_time + j) := by
      have h1 := time_to_slot_exact ha
      unfold slot_to_time DAY_START_HOUR SLOT_DURATION_MINUTES
      omega
    rw [heq] at hPj
    exact hPj

theorem durations_sum_div (l : List Shift) :
    (l.map Shift.duration_hours).sum
      = (((l.map (fun s => s.end_datetime - s.start_datetime)).sum : Int) : ℚ) / 60 := by
  induction l with
  | nil => simp
  | cons s tl ih =>
    simp only [List.map_cons, List.sum_cons, ih, Shift.duration_hours]
    push_cast
    ring

/-- An integer number of minutes exceeds the 0.01-hour tolerance exactly
when it is positive: every shift duration is a whole number of minutes,
so the CP-SAT tolerance never changes a shortfall decision. -/
theorem int_div60_gt_iff (z : Int) :
    ((z : ℚ) / 60 > 1/100) ↔ ((z : ℚ) / 60 > 0) := by
  rw [gt_iff_lt, gt_iff_lt, lt_div_iff₀ (by norm_num : (0:ℚ) < 60),
      lt_div_iff₀ (by norm_num : (0:ℚ) < 60)]
  constructor
  · intro h
    nlinarith
  · intro h
    have hz0 : (0 : ℚ) < (z : ℚ) := by nlinarith
    have hz : (0 : Int) < z := by exact_mod_cast hz0
    have hz1 : (1 : Int) ≤ z := by omega
    have hz2 : (1 : ℚ) ≤ (z : ℚ) := by exact_mod_cast hz1
    nlinarith

theorem calc_hours_append (ns ex : List Shift) (i : Int) :
    calculate_employee_hours (ns ++ ex) i
      = ((ns.filter (fun s => s.employee_id == i)).map Shift.duration_hours).sum
        + orExistingHours i ex := by
  unfold calculate_employee_hours orExistingHours
  rw [List.filter_append, List.map_append, List.sum_append]

theorem shortfall_pos_iff (c : Int) (ns ex : List Shift) (i : Int) :
    ((c : ℚ) - (((ns.filter (fun s => s.employee_id == i)).map Shift.duration_hours).sum
        + orExistingHours i ex) > 1/100)
      ↔ ((c : ℚ) - (((ns.filter (fun s => s.employee_id == i)).map
          Shift.duration_hours).sum + orExistingHours i ex) > 0) := by
  unfold orExistingHours
  rw [← List.sum_append, ← List.map_append, ← List.filter_append, durations_sum_div]
  have hcast : (c : ℚ) - ((((((ns ++ ex).filter (fun s => s.employee_id == i)).map
      (fun s => s.end_datetime - s.start_datetime)).sum : Int) : ℚ)) / 60
      = (((60 * c - (((ns ++ ex).filter (fun s => s.employee_id == i)).map
        (fun s => s.end_datetime - s.start_datetime)).sum : Int)) : ℚ) / 60 := by
    push_cast
    ring
  rw [hcast]
  exact int_div60_gt_iff _

/-- `_check_unmet_hours` agrees with the validator's contracted-hours
pass unconditionally: durations are whole minutes, so the 0.01-hour
tolerance is inert. -/
theorem orCheckUnmetHours_eq (ns : List Shift) (context : ScheduleContext) :
    orCheckUnmetHours ns context
      = check_contracted_hours (ns ++ context.existing_shifts) context.employees := by
  unfold orCheckUnmetHours check_contracted_hours
  refine List.filterMap_congr ?_
  intro emp _
  dsimp only []
  rw [calc_hours_append]
  refine if_congr ?_ rfl rfl
  exact shortfall_pos_iff emp.contracted_weekly_hours ns context.existing_shifts emp.id

/-- C3, amended.  The CP-SAT result's unmet collections are *not* the
validator's output in general (`claim_C3_counterexample`); they are a
60-minute-slot resampling with a department-blind role check and a
0.01-hour shortfall tolerance.  Amended: whenever every coverage and
role window is hour-aligned, every shift boundary (new and existing) is
hour-aligned, and every role requirement is store-wide, the result built
from any returned shift list `ns` reports exactly the validator's unmet
coverage requirements, unmet role requirements and hour shortfalls over
`ns ++ existing_shifts`, and its success flag equals the validator's
verdict. -/
theorem claim_C3_amended (context : ScheduleContext) (ns : List Shift) (fno : Bool)
    (hcov : ∀ req ∈ context.coverage_requirements,
      (60 : Int) ∣ req.start_time ∧ (60 : Int) ∣ req.end_time)
    (hrole : ∀ req ∈ context.role_requirements,
      (60 : Int) ∣ req.start_time ∧ (60 : Int) ∣ req.end_time ∧
        truthyId req.department_id = false)
    (hsh : ∀ s ∈ ns ++ context.existing_shifts,
      (60 : Int) ∣ s.start_datetime ∧ (60 : Int) ∣ s.end_datetime) :
    ((orBuildResult context ns fno).unmet_coverage
        = ((validate_schedule context (ns ++ context.existing_shifts)).coverage_gaps).map
            Prod.fst)
      ∧ ((orBuildResult context ns fno).unmet_role_requirements
        = ((validate_schedule context (ns ++ context.existing_shifts)).role_gaps).map
            Prod.fst)
      ∧ ((orBuildResult context ns fno).unmet_contracted_hours
        = (validate_schedule context (ns ++ context.existing_shifts)).hour_shortfalls)
      ∧ ((orBuildResult context ns fno).success
        = (validate_schedule context (ns ++ context.existing_shifts)).valid) := by
  have hc := orCheckUnmetCoverage_eq ns context hcov hsh
  have hr := orCheckUnmetRoles_eq ns context hrole hsh
  have hh := orCheckUnmetHours_eq ns context
  refine ⟨hc, hr, hh, ?_⟩
  calc (orBuildResult context ns fno).success
      = ((orCheckUnmetCoverage ns context).isEmpty &&
          (orCheckUnmetRoles ns context).isEmpty &&
          (orCheckUnmetHours ns context).isEmpty) := rfl
    _ = ((((validate_schedule context (ns ++ context.existing_shifts)).coverage_gaps).map
            Prod.fst).isEmpty &&
          (((validate_schedule context (ns ++ context.existing_shifts)).role_gaps).map
            Prod.fst).isEmpty &&
          ((validate_schedule context (ns ++ context.existing_shifts)).hour_shortfalls).isEmpty) := by
        rw [hc, hr, hh]
        exact rfl
    _ = (((validate_schedule context (ns ++ context.existing_shifts)).coverage_gaps).isEmpty &&
          ((validate_schedule context (ns ++ context.existing_shifts)).role_gaps).isEmpty &&
          ((validate_schedule context (ns ++ context.existing_shifts)).hour_shortfalls).isEmpty) := by
        rw [isEmpty_map_cov, isEmpty_map_role]
    _ = (validate_schedule context (ns ++ context.existing_shifts)).valid := rfl

def c3Req : CoverageRequirement :=
  { id := 1, store_id := 1, department_id := 1, day_of_week := 0,
    start_time := 600, end_time := 630, min_staff := 1, max_staff := none }

/-- No employees, one sub-hour coverage requirement Monday
10:00-10:30. -/
def c3Context : ScheduleContext :=
  { store_id := 1, week_start := 0, employees := [], availability_rules := [],
    time_off_requests := [], coverage_requirements := [c3Req],
    role_requirements := [], existing_shifts := [] }

/-- C3, refuted as stated.  On `c3Context` the CP-SAT model has no
decision variables, so every backend assignment extracts the empty shift
list; the built result reports no unmet coverage and success, while the
validator run on the same (empty) union of returned and existing shifts
reports the 10:00-10:30 requirement as an unmet coverage gap: the
requirement's hour-slot range `intRange 4 4` is empty, so the 60-minute
sampling never looks inside the window the validator samples at 10:00. -/
theorem claim_C3_counterexample :
    (∀ sol : OrKey → Bool,
        orExtractShifts c3Context sol = [] ∧
        (orBuildResult c3Context (orExtractShifts c3Context sol) false).success = true ∧
        (orBuildResult c3Context (orExtractShifts c3Context sol) false).unmet_coverage
          = []) ∧
    ((validate_schedule c3Context ([] ++ c3Context.existing_shifts)).coverage_gaps).map
        Prod.fst = [c3Req] ∧
    (validate_schedule c3Context ([] ++ c3Context.existing_shifts)).valid = false := by
  refine ⟨fun sol => ?_, by decide, by decide⟩
  have hext : orExtractShifts c3Context sol = [] := rfl
  rw [hext]
  exact ⟨rfl, by decide, by decide⟩

def c3wShift : Shift :=
  { employee_id := 1, store_id := 1, department_id := 1,
    start_datetime := 600, end_datetime := 660 }

def c3wReq : CoverageRequirement :=
  { id := 2, store_id := 1, department_id := 1, day_of_week := 0,
    start_time := 600, end_time := 720, min_staff := 1, max_staff := none }

/-- Hour-aligned witness context: one existing 10:00-11:00 shift against
a Monday 10:00-12:00 coverage requirement. -/
def c3WitnessContext : ScheduleContext :=
  { store_id := 1, week_start := 0, employees := [], availability_rules := [],
    time_off_requests := [], coverage_requirements := [c3wReq],
    role_requirements := [], existing_shifts := [c3wShift] }

/-- Witness for `claim_C3_amended` at a concrete hour-aligned context:
both reports name exactly the partially covered requirement. -/
theorem claim_C3_witness :
    ((orBuildResult c3WitnessContext [] false).unmet_coverage
        = ((validate_schedule c3WitnessContext
            ([] ++ c3WitnessContext.existing_shifts)).coverage_gaps).map Prod.fst)
      ∧ ((orBuildResult c3WitnessContext [] false).unmet_coverage = [c3wReq]) :=
  ⟨(claim_C3_amended c3WitnessContext [] false (by decide) (by decide) (by decide)).1,
    by decide⟩
